import Mathlib

/-!
Verification of the embedded NetworkX-backed graph store
(`src/database/networkx_adapter.py` and `src/database/base.py`).

The embedding models:
  * Python/JSON values (`J`), Python-dict semantics on string-keyed
    association lists (`Attrs`),
  * the adapter's in-memory state and every mutating store operation,
  * the persistence codec (`node_link_data` / `node_link_graph` from
    networkx, as invoked with `edges="links"`), and
  * the file-system effects of `_save_graph` / `_create_backup`.
-/

namespace GraphRAG

/-- Lookup in a string-keyed association list (Python `d.get(k)`); all
dicts in the model keep one binding per key. -/
def flook (l : List (String × α)) (k : String) : Option α :=
  (l.find? (fun p => p.1 == k)).map (·.2)

/-- JSON/Python values as stored in property bags and parsed documents.
Numbers are modelled as integers (the adapter only ever stores strings,
integers and booleans; floats play no role in any property considered). -/
inductive J where
  | null : J
  | jbool : Bool → J
  | jnum : Int → J
  | jstr : String → J
  | jarr : List J → J
  | jobj : List (String × J) → J
deriving Repr

mutual

/-- Structural (constructor-wise) equality of values: the decision
procedure behind `DecidableEq J`.  Python `==` is `pyEq` below. -/
def J.deq : J → J → Bool
  | .null, .null => true
  | .jbool a, .jbool b => a == b
  | .jnum a, .jnum b => a == b
  | .jstr a, .jstr b => a == b
  | .jarr a, .jarr b => J.deqList a b
  | .jobj a, .jobj b => J.deqObj a b
  | _, _ => false

def J.deqList : List J → List J → Bool
  | [], [] => true
  | a :: as_, b :: bs => J.deq a b && J.deqList as_ bs
  | _, _ => false

def J.deqObj : List (String × J) → List (String × J) → Bool
  | [], [] => true
  | (k1, v1) :: as_, (k2, v2) :: bs => k1 == k2 && J.deq v1 v2 && J.deqObj as_ bs
  | _, _ => false

end

mutual

theorem J.deq_refl : ∀ a : J, J.deq a a = true
  | .null => rfl
  | .jbool b => by simp [J.deq]
  | .jnum n => by simp [J.deq]
  | .jstr s => by simp [J.deq]
  | .jarr xs => by simpa [J.deq] using J.deqList_refl xs
  | .jobj kvs => by simpa [J.deq] using J.deqObj_refl kvs

theorem J.deqList_refl : ∀ l : List J, J.deqList l l = true
  | [] => rfl
  | x :: xs => by simp [J.deqList, J.deq_refl x, J.deqList_refl xs]

theorem J.deqObj_refl : ∀ l : List (String × J), J.deqObj l l = true
  | [] => rfl
  | (k, v) :: xs => by simp [J.deqObj, J.deq_refl v, J.deqObj_refl xs]

end

mutual

theorem J.deq_sound : ∀ a b : J, J.deq a b = true → a = b
  | .null, b, h => by cases b <;> simp [J.deq] at h ⊢
  | .jbool a, b, h => by cases b <;> simp [J.deq] at h ⊢; exact h
  | .jnum a, b, h => by cases b <;> simp [J.deq] at h ⊢; exact h
  | .jstr a, b, h => by cases b <;> simp [J.deq] at h ⊢; exact h
  | .jarr xs, b, h => by
      cases b <;> simp [J.deq] at h ⊢
      case jarr ys => exact J.deqList_sound xs ys h
  | .jobj xs, b, h => by
      cases b <;> simp [J.deq] at h ⊢
      case jobj ys => exact J.deqObj_sound xs ys h

theorem J.deqList_sound : ∀ a b : List J, J.deqList a b = true → a = b
  | [], [], _ => rfl
  | [], _ :: _, h => by simp [J.deqList] at h
  | _ :: _, [], h => by simp [J.deqList] at h
  | x :: xs, y :: ys, h => by
      simp only [J.deqList, Bool.and_eq_true] at h
      exact by rw [J.deq_sound x y h.1, J.deqList_sound xs ys h.2]

theorem J.deqObj_sound : ∀ a b : List (String × J), J.deqObj a b = true → a = b
  | [], [], _ => rfl
  | [], _ :: _, h => by simp [J.deqObj] at h
  | _ :: _, [], h => by simp [J.deqObj] at h
  | (k1, v1) :: xs, (k2, v2) :: ys, h => by
      simp only [J.deqObj, Bool.and_eq_true, beq_iff_eq] at h
      exact by rw [h.1.1, J.deq_sound v1 v2 h.1.2, J.deqObj_sound xs ys h.2]

end

instance : DecidableEq J := fun a b =>
  decidable_of_iff (J.deq a b = true)
    ⟨J.deq_sound a b, fun h => h ▸ J.deq_refl a⟩

/-- Python truthiness of a value, as used by `if limit:`-style tests and
by `data.get("multigraph", True)` consumed as a boolean. -/
def J.truthy : J → Bool
  | .null => false
  | .jbool b => b
  | .jnum n => n != 0
  | .jstr s => s ≠ ""
  | .jarr xs => !xs.isEmpty
  | .jobj kvs => !kvs.isEmpty

/-- A Python dict with string keys, in insertion order (unique keys). -/
abbrev Attrs := List (String × J)

/-- `d.get(k)` / `k in d`: first (only) binding of a key. -/
def alookup (a : Attrs) (k : String) : Option J := flook a k

/-- `d[k] = v`: overwrite in place if the key is present, else append. -/
def ainsert (a : Attrs) (k : String) (v : J) : Attrs :=
  match a with
  | [] => [(k, v)]
  | kv :: rest => if kv.1 == k then (k, v) :: rest else kv :: ainsert rest k v

/-- `d.update(e)` (also the tail of a `{**d, **e}` literal): fold the
updates left to right. -/
def aupdate (a b : Attrs) : Attrs :=
  b.foldl (fun acc kv => ainsert acc kv.1 kv.2) a

/-- A `{k1: v1, k2: v2, ...}` dict literal built from a (possibly
duplicated) key/value list: later occurrences win, position is kept. -/
def adict (l : List (String × J)) : Attrs :=
  l.foldl (fun acc kv => ainsert acc kv.1 kv.2) []

/-- The error kinds raised by `base.py` plus the raw `TypeError` Python
raises on hashing an unhashable value.  The spec calls the save-failure
`DatabaseConnectionError` "PersistenceError" in its taxonomy (§7). -/
inductive GError where
  | databaseConnectionError
  | nodeNotFoundError
  | relationshipNotFoundError
  | validationError
  | typeError
deriving DecidableEq, Repr

/-- The `properties` argument of node operations: a dict, or some
non-dict Python object (rejected by `validate_node_properties`). -/
inductive PropsArg where
  | dict (a : Attrs)
  | nonDict
deriving DecidableEq, Repr

/-- `GraphDatabase.validate_node_properties` (base.py lines 269-286). -/
def validateNodeProperties : PropsArg → Except GError Unit
  | .nonDict => .error .validationError
  | .dict a =>
    if (alookup a "id").isSome || (alookup a "_id").isSome || (alookup a "node_id").isSome then
      .error .validationError
    else .ok ()

/-- An undirected `networkx.Graph` edge: the stored endpoint pair (in
first-insertion orientation) and its attribute dict. -/
structure Edge where
  u : String
  v : String
  attrs : Attrs
deriving DecidableEq, Repr

/-- The in-memory state of a `NetworkXAdapter` handle: connected flag,
the `nx.Graph` (nodes with attribute dicts, undirected edges), the
`_nodes_by_label` index and `_relationship_counter`. -/
structure Adapter where
  connected : Bool
  nodes : List (String × Attrs)
  edges : List Edge
  nodesByLabel : List (String × List String)
  relCounter : Int
deriving DecidableEq, Repr

/-- A freshly constructed, connected handle whose data file was absent
(the bootstrap state after `connect()` on a new path). -/
def emptyAdapter : Adapter := ⟨true, [], [], [], 0⟩

def hasNode (h : Adapter) (nid : String) : Bool :=
  h.nodes.any (fun p => p.1 == nid)

def nodeAttrs (h : Adapter) (nid : String) : Option Attrs := flook h.nodes nid

/-- The current label attribute of a node. -/
def nodeLabel (h : Adapter) (nid : String) : Option J :=
  (nodeAttrs h nid).bind (fun a => alookup a "label")

/-- `set.add` on a Python set modelled as a duplicate-free list. -/
def setAdd (s : List String) (x : String) : List String :=
  if s.contains x then s else s ++ [x]

def idxLookup (idx : List (String × List String)) (k : String) : Option (List String) :=
  flook idx k

/-- `if label not in idx: idx[label] = set()` followed by `idx[label].add(nid)`. -/
def idxAdd (idx : List (String × List String)) (label nid : String) : List (String × List String) :=
  if (idxLookup idx label).isSome then
    idx.map (fun p => if p.1 == label then (p.1, setAdd p.2 nid) else p)
  else idx ++ [(label, [nid])]

/-- `idx[label].discard(nid)` followed by `if not idx[label]: del idx[label]`. -/
def idxDiscard (idx : List (String × List String)) (label nid : String) : List (String × List String) :=
  (idx.map (fun p => if p.1 == label then (p.1, p.2.filter (fun y => y ≠ nid)) else p)).filter
    (fun p => !(p.1 == label && p.2.isEmpty))

/-- `NetworkXAdapter.create_node` (networkx_adapter.py lines 103-153).
`genId` stands for the `uuid4()` string `generate_node_id` would return. -/
def createNode (h : Adapter) (label : String) (props : PropsArg) (nodeId : Option String)
    (genId : String) : Except GError (String × Adapter) :=
  if !h.connected then .error .databaseConnectionError
  else match validateNodeProperties props, props with
  | .error e, _ => .error e
  | .ok _, .nonDict => .error .validationError  -- unreachable: validation rejects non-dicts
  | .ok _, .dict p =>
    if hasNode h (nodeId.getD genId) then .error .validationError
    else
      .ok (nodeId.getD genId, { h with
        nodes := h.nodes ++ [(nodeId.getD genId,
          aupdate [("node_id", J.jstr (nodeId.getD genId)), ("label", J.jstr label)] p)],
        nodesByLabel := idxAdd h.nodesByLabel label (nodeId.getD genId) })

/-- Degree of a node in `nx.Graph` (a self-loop counts twice). -/
def degreeOf (h : Adapter) (nid : String) : Int :=
  h.edges.foldl
    (fun acc e =>
      if e.u == nid && e.v == nid then acc + 2
      else if e.u == nid || e.v == nid then acc + 1
      else acc) 0

/-- `list(self.graph.neighbors(node_id))` in adjacency-insertion order. -/
def neighborsOf (h : Adapter) (nid : String) : List String :=
  (h.edges.filter (fun e => e.u == nid || e.v == nid)).map
    (fun e => if e.u == nid then e.v else e.u)

/-- `NetworkXAdapter.get_node` (lines 155-181). -/
def getNode (h : Adapter) (nid : String) : Except GError (Option Attrs) :=
  if !h.connected then .error .databaseConnectionError
  else match nodeAttrs h nid with
  | none => .ok none
  | some a =>
    .ok (some (aupdate a
      [("degree", J.jnum (degreeOf h nid)),
       ("neighbors", J.jarr ((neighborsOf h nid).map J.jstr))]))

/-- `NetworkXAdapter.update_node` (lines 183-210). -/
def updateNode (h : Adapter) (nid : String) (props : PropsArg) : Except GError (Bool × Adapter) :=
  if !h.connected then .error .databaseConnectionError
  else if !hasNode h nid then .ok (false, h)
  else match validateNodeProperties props, props with
  | .error e, _ => .error e
  | .ok _, .nonDict => .error .validationError  -- unreachable: validation rejects non-dicts
  | .ok _, .dict p =>
    .ok (true, { h with
      nodes := h.nodes.map (fun q => if q.1 == nid then (q.1, aupdate q.2 p) else q) })

/-- `NetworkXAdapter.delete_node` (lines 212-246).  The label-index
cleanup evaluates `if label and label in self._nodes_by_label:` — a
falsy or non-string label never matches an index key, and an unhashable
label (list/dict) makes the `in` test raise `TypeError`. -/
def deleteNode (h : Adapter) (nid : String) : Except GError (Bool × Adapter) :=
  if !h.connected then .error .databaseConnectionError
  else match nodeAttrs h nid with
  | none => .ok (false, h)
  | some attrs =>
    match alookup attrs "label" with
    | some (J.jarr xs) =>
      if !xs.isEmpty then .error .typeError
      else .ok (true, { h with nodes := h.nodes.filter (fun q => !(q.1 == nid)),
                               edges := h.edges.filter (fun e => !(e.u == nid || e.v == nid)) })
    | some (J.jobj kvs) =>
      if !kvs.isEmpty then .error .typeError
      else .ok (true, { h with nodes := h.nodes.filter (fun q => !(q.1 == nid)),
                               edges := h.edges.filter (fun e => !(e.u == nid || e.v == nid)) })
    | some (J.jstr s) =>
      if s ≠ "" && (idxLookup h.nodesByLabel s).isSome then
        .ok (true, { h with nodes := h.nodes.filter (fun q => !(q.1 == nid)),
                            edges := h.edges.filter (fun e => !(e.u == nid || e.v == nid)),
                            nodesByLabel := idxDiscard h.nodesByLabel s nid })
      else .ok (true, { h with nodes := h.nodes.filter (fun q => !(q.1 == nid)),
                               edges := h.edges.filter (fun e => !(e.u == nid || e.v == nid)) })
    | _ => .ok (true, { h with nodes := h.nodes.filter (fun q => !(q.1 == nid)),
                               edges := h.edges.filter (fun e => !(e.u == nid || e.v == nid)) })

mutual

/-- Python `==` on the modelled value universe: `None` only equals
`None`, `True`/`False` equal the integers `1`/`0` (`bool` is an `int`
subclass), strings compare by value, lists elementwise, and dicts by
key set and per-key `==` (insertion order is irrelevant; all dicts in
the model keep one binding per key). -/
def pyEq : J → J → Bool
  | .null, b => match b with | .null => true | _ => false
  | .jbool x, b => match b with
    | .jbool y => x == y
    | .jnum n => n == (if x then 1 else 0)
    | _ => false
  | .jnum n, b => match b with
    | .jnum m => n == m
    | .jbool x => n == (if x then 1 else 0)
    | _ => false
  | .jstr s, b => match b with | .jstr t => s == t | _ => false
  | .jarr xs, b => match b with | .jarr ys => pyEqList xs ys | _ => false
  | .jobj xs, b => match b with
    | .jobj ys => xs.length == ys.length && pyEqSub xs ys
    | _ => false

def pyEqList : List J → List J → Bool
  | [], ys => ys.isEmpty
  | x :: xs, ys => match ys with
    | y :: ys2 => pyEq x y && pyEqList xs ys2
    | [] => false

/-- Does every binding of the first dict hold, under Python `==`, in
the second (`k in d2 and d2[k] == v`)? -/
def pyEqSub : List (String × J) → List (String × J) → Bool
  | [], _ => true
  | (k, v) :: rest, ys =>
    (match flook ys k with | some w => pyEq v w | none => false) && pyEqSub rest ys

end

/-- Does a node attribute dict pass the label test and the optional
exact-equality filters of `get_nodes_by_label`?  Both tests are Python
`==` against `node_attrs.get(...)`, whose `None` default means a filter
entry with value `null` matches a node lacking the key.  (An empty
filter dict is falsy in Python, but filtering by an empty dict also
passes everything, so the two branches coincide.) -/
def matchesQuery (a : Attrs) (label : String) (filters : Option Attrs) : Bool :=
  pyEq ((alookup a "label").getD J.null) (J.jstr label) &&
  (match filters with
   | none => true
   | some f => f.all (fun kv => pyEq ((alookup a kv.1).getD J.null) kv.2))

/-- The `{**node_attrs, "degree": ..., "neighbors": [...]}` result row. -/
def enrich (h : Adapter) (nid : String) (a : Attrs) : Attrs :=
  aupdate a
    [("degree", J.jnum (degreeOf h nid)),
     ("neighbors", J.jarr ((neighborsOf h nid).map J.jstr))]

/-- `if limit and len(results) >= limit:` — note `limit = 0` is falsy. -/
def limitReached (lim : Option Int) (len : Nat) : Bool :=
  match lim with
  | none => false
  | some n => n != 0 && n ≤ (len : Int)

/-- The collection loop of `get_nodes_by_label` (lines 271-293):
append each matching row, breaking once the limit test fires. -/
def collectRows (h : Adapter) (label : String) (filters : Option Attrs) (lim : Option Int) :
    List (String × Attrs) → List Attrs → List Attrs
  | [], acc => acc
  | (nid, a) :: rest, acc =>
    if matchesQuery a label filters then
      if limitReached lim (acc ++ [enrich h nid a]).length then acc ++ [enrich h nid a]
      else collectRows h label filters lim rest (acc ++ [enrich h nid a])
    else collectRows h label filters lim rest acc

/-- `results.sort(key=lambda x: x.get("node_id", ""))` — model the sort
key; node ids written by the store are always strings. -/
def rowKey (a : Attrs) : String :=
  match alookup a "node_id" with
  | some (J.jstr s) => s
  | _ => ""

/-- `NetworkXAdapter.get_nodes_by_label` (lines 248-299). -/
def getNodesByLabel (h : Adapter) (label : String) (filters : Option Attrs) (lim : Option Int) :
    Except GError (List Attrs) :=
  if !h.connected then .error .databaseConnectionError
  else .ok ((collectRows h label filters lim h.nodes []).insertionSort
    (fun a b => rowKey a ≤ rowKey b))

/-- The whitespace characters stripped by Python `str.strip()` (ASCII
subset; the adapter only ever passes ASCII relationship types). -/
def isPySpace (c : Char) : Bool :=
  c == ' ' || c == '\t' || c == '\n' || c == '\r' || c == '\x0b' || c == '\x0c'

/-- `not relationship_type.strip()`: the string is empty or whitespace
only (`validate_relationship_type`, base.py lines 288-299). -/
def stripIsEmpty (s : String) : Bool := s.data.all isPySpace

/-- First unordered match for `G.edges[u, v]` / `G.add_edge(u, v)`. -/
def sameEdge (e : Edge) (a b : String) : Bool :=
  (e.u == a && e.v == b) || (e.u == b && e.v == a)

/-- `G.add_edge(u, v, **attrs)`: when the unordered pair already has an
edge, its attribute dict is updated in place (merged, not replaced);
otherwise a new edge is appended. -/
def addEdgeNX : List Edge → String → String → Attrs → List Edge
  | [], a, b, at2 => [⟨a, b, at2⟩]
  | e :: rest, a, b, at2 =>
    if sameEdge e a b then ⟨e.u, e.v, aupdate e.attrs at2⟩ :: rest
    else e :: addEdgeNX rest a b at2

/-- `NetworkXAdapter.create_relationship` (lines 301-355).  `relId`
stands for the `str(uuid4())` the call generates. -/
def createRelationship (h : Adapter) (s e ty : String) (props : Option Attrs) (relId : String) :
    Except GError (String × Adapter) :=
  if !h.connected then .error .databaseConnectionError
  else if !hasNode h s then .error .nodeNotFoundError
  else if !hasNode h e then .error .nodeNotFoundError
  else if stripIsEmpty ty then .error .validationError
  else
    .ok (relId, { h with
      edges := addEdgeNX h.edges s e (aupdate
        [("rel_id", J.jstr relId), ("type", J.jstr ty),
         ("start_node_id", J.jstr s), ("end_node_id", J.jstr e)] (props.getD [])),
      relCounter := h.relCounter + 1 })

/-- `NetworkXAdapter.get_relationships` (lines 357-412).  Note the order
of the guards: a missing node returns `[]` before the direction string
is validated.  `if relationship_type and ...` makes an empty type filter
falsy, i.e. inactive. -/
def getRelationships (h : Adapter) (nid : String) (relType : Option String) (direction : String) :
    Except GError (List Attrs) :=
  if !h.connected then .error .databaseConnectionError
  else if !hasNode h nid then .ok []
  else if !(direction == "incoming" || direction == "outgoing" || direction == "both") then
    .error .validationError
  else
    .ok ((h.edges.filter (fun e => e.u == nid || e.v == nid)).filterMap (fun e =>
      if direction == "outgoing" &&
          !((alookup e.attrs "start_node_id").getD (J.jstr nid) == J.jstr nid) then none
      else if direction == "incoming" &&
          !((alookup e.attrs "end_node_id").getD
              (J.jstr (if e.u == nid then e.v else e.u)) == J.jstr nid) then none
      else if (match relType with | none => false | some t => t ≠ "") &&
          !(alookup e.attrs "type" == some (J.jstr (relType.getD ""))) then none
      else some (aupdate e.attrs
        [("start_node_id", (alookup e.attrs "start_node_id").getD (J.jstr nid)),
         ("end_node_id", (alookup e.attrs "end_node_id").getD
            (J.jstr (if e.u == nid then e.v else e.u)))])))

/-- Remove the first edge satisfying a predicate (the loop in
`delete_relationship` removes the first match and returns). -/
def removeFirstEdge (p : Edge → Bool) : List Edge → List Edge
  | [] => []
  | e :: rest => if p e then rest else e :: removeFirstEdge p rest

/-- `NetworkXAdapter.delete_relationship` (lines 414-440). -/
def deleteRelationship (h : Adapter) (rid : String) : Except GError (Bool × Adapter) :=
  if !h.connected then .error .databaseConnectionError
  else
    if h.edges.any (fun e : Edge => alookup e.attrs "rel_id" == some (J.jstr rid)) then
      .ok (true, { h with
        edges := removeFirstEdge
          (fun e : Edge => alookup e.attrs "rel_id" == some (J.jstr rid)) h.edges })
    else .ok (false, h)

/-- `NetworkXAdapter.clear_all_data` (lines 473-491). -/
def clearAll (h : Adapter) : Except GError (Unit × Adapter) :=
  if !h.connected then .error .databaseConnectionError
  else .ok ((), { h with nodes := [], edges := [], nodesByLabel := [], relCounter := 0 })

/-- The mutating operations of the store contract (read-only operations
leave the state unchanged and are omitted from state traces). -/
inductive Op where
  | opCreateNode (label : String) (props : PropsArg) (nodeId : Option String) (genId : String)
  | opUpdateNode (nid : String) (props : PropsArg)
  | opDeleteNode (nid : String)
  | opCreateRel (s e ty : String) (props : Option Attrs) (relId : String)
  | opDeleteRel (rid : String)
  | opClearAll

/-- Apply one operation; a raised error leaves the state unchanged
(every operation validates before it mutates). -/
def applyOp (h : Adapter) : Op → Adapter
  | .opCreateNode l p n g => match createNode h l p n g with | .ok r => r.2 | .error _ => h
  | .opUpdateNode n p => match updateNode h n p with | .ok r => r.2 | .error _ => h
  | .opDeleteNode n => match deleteNode h n with | .ok r => r.2 | .error _ => h
  | .opCreateRel s e ty p r => match createRelationship h s e ty p r with
                               | .ok r2 => r2.2 | .error _ => h
  | .opDeleteRel r => match deleteRelationship h r with | .ok r2 => r2.2 | .error _ => h
  | .opClearAll => match clearAll h with | .ok r => r.2 | .error _ => h

/-- The state reached from a fresh connected handle by a call sequence. -/
def reach (ops : List Op) : Adapter := ops.foldl applyOp emptyAdapter

/-! ## File-system model for `_save_graph` / `_create_backup`

The paths the adapter touches are the data file, its `.tmp` sibling and
the numbered `.bakN` siblings.  A file system is a finite map from those
paths to contents. -/

/-- The slice of the file system the adapter can touch: content of the
data file, of the `.tmp` sibling, and of each `.bakN` sibling (an
association list over backup numbers, one entry per existing file). -/
structure FS where
  dataF : Option String
  tmpF : Option String
  baks : List (Nat × String)
deriving DecidableEq, Repr

def FS.bakGet (fs : FS) (i : Nat) : Option String :=
  (fs.baks.find? (fun p => p.1 == i)).map (·.2)

/-- Write/overwrite backup file `i` (an `unlink`-if-present followed by
a rename onto that name has the same effect on contents). -/
def FS.bakPut (fs : FS) (i : Nat) (c : String) : FS :=
  { fs with baks := (fs.baks.filter (fun p => !(p.1 == i))) ++ [(i, c)] }

def FS.bakDel (fs : FS) (i : Nat) : FS :=
  { fs with baks := fs.baks.filter (fun p => !(p.1 == i)) }

/-- One iteration of the rotation loop in `_create_backup` (lines
608-614): if `.bak i` exists, delete `.bak (i+1)` if present and rename
`.bak i` to `.bak (i+1)`. -/
def rotateStep (fs : FS) (i : Nat) : FS :=
  match fs.bakGet i with
  | none => fs
  | some c => (fs.bakDel i).bakPut (i + 1) c

/-- `range(n - 1, 0, -1)` : the list `[n-1, n-2, ..., 1]`. -/
def descRange : Nat → List Nat
  | 0 => []
  | 1 => []
  | n + 2 => (n + 1) :: descRange (n + 1)

/-- `NetworkXAdapter._create_backup` (lines 602-625): rotate backups
from highest to lowest, then rename the data file to `.bak1`.  Only
called when the data file exists; its internal exception handler
swallows failures, which are not injected here. -/
def createBackup (fs : FS) (n : Nat) : FS :=
  match ((descRange n).foldl rotateStep fs).dataF with
  | none => (descRange n).foldl rotateStep fs
  | some c =>
    { ((((descRange n).foldl rotateStep fs).bakDel 1).bakPut 1 c) with dataF := none }

/-- `NetworkXAdapter._save_graph` (lines 494-533) as a file-system
transformer.  `content` is the serialized document; `writeFails` injects
a failure while the temporary file is being written (i.e. before the
final rename), in which case the handler unlinks the temporary file and
the call raises `DatabaseConnectionError` (the spec's
`PersistenceError`). -/
def saveGraph (fs : FS) (n : Nat) (content : String) (writeFails : Bool) :
    FS × Option GError :=
  let fs1 := if fs.dataF.isSome && decide (0 < n) then createBackup fs n else fs
  if writeFails then
    ({ fs1 with tmpF := none }, some .databaseConnectionError)
  else
    let fs2 := { fs1 with tmpF := some content }
    ({ fs2 with dataF := some content, tmpF := none }, none)

/-- A sequence of save cycles: each element is the serialized content
together with its injected failure flag. -/
def runSaves (fs : FS) (n : Nat) (saves : List (String × Bool)) : FS :=
  saves.foldl (fun f cw => (saveGraph f n cw.1 cw.2).1) fs

/-! ## Persistence codec

`_save_graph` serializes via `json_graph.node_link_data(G, edges="links")`
and `_load_graph` parses via `json_graph.node_link_graph(data,
edges="links")` (networkx ≥ 3.4).  Parsed JSON documents are modelled
as `J`; a data file is either absent, empty, undecodable, or a parsed
document. -/

inductive FileData where
  | missing
  | emptyFile
  | invalidJson
  | parsed (j : J)

def jLookup (kvs : List (String × J)) (k : String) : Option J := flook kvs k

/-- `json_graph.node_link_data(G, edges="links")`: the node-link
document of the graph.  Node rows are `{**attrs, "id": n}` and link rows
are `{**attrs, "source": u, "target": v}` (dict literals, so attribute
keys named `id` / `source` / `target` are overwritten). -/
def nodeLinkData (nodes : List (String × Attrs)) (edges : List Edge) : J :=
  .jobj
    [("directed", .jbool false),
     ("multigraph", .jbool false),
     ("graph", .jobj []),
     ("nodes", .jarr (nodes.map (fun p => .jobj (aupdate p.2 [("id", J.jstr p.1)])))),
     ("links", .jarr (edges.map (fun e =>
        .jobj (aupdate e.attrs [("source", J.jstr e.u), ("target", J.jstr e.v)]))))]

/-- The document `_save_graph` writes (lines 503-512). -/
def saveDoc (h : Adapter) : J :=
  .jobj
    [("graph", nodeLinkData h.nodes h.edges),
     ("metadata", .jobj
       [("nodes_by_label", .jobj (h.nodesByLabel.map (fun p => (p.1, J.jarr (p.2.map J.jstr))))),
        ("relationship_counter", .jnum h.relCounter),
        ("node_count", .jnum (h.nodes.length : Int)),
        ("edge_count", .jnum (h.edges.length : Int))])]

/-- `G.add_node(n, **attrs)` during decoding: merge onto an existing
node's dict, else append. -/
def addNodeNX (nodes : List (String × Attrs)) (nid : String) (a : Attrs) :
    List (String × Attrs) :=
  if nodes.any (fun p => p.1 == nid) then
    nodes.map (fun p => if p.1 == nid then (p.1, aupdate p.2 a) else p)
  else nodes ++ [(nid, a)]

/-- Decode one node row of `node_link_graph`: the row must be a dict
(`d.get` on anything else raises), its `id` is taken and the remaining
entries become the attribute dict.  Rows without an `id` get an integer
counter as node id, and non-string ids build nodes outside this model's
string-keyed store; neither occurs in a document the adapter wrote, and
no claim reaches them, so both are folded into the error outcome. -/
def decodeNodeRow (j : J) : Except GError (String × Attrs) :=
  match j with
  | .jobj kvs =>
    match jLookup kvs "id" with
    | some (J.jstr s) => .ok (s, kvs.filter (fun p => !(p.1 == "id")))
    | _ => .error .databaseConnectionError
  | _ => .error .databaseConnectionError

/-- Decode one link row: `d["source"]` / `d["target"]` must exist (a
`KeyError` otherwise) and, in this string-keyed model, be strings; the
remaining entries become the edge dict. -/
def decodeLinkRow (j : J) : Except GError (String × String × Attrs) :=
  match j with
  | .jobj kvs =>
    match jLookup kvs "source", jLookup kvs "target" with
    | some (J.jstr s), some (J.jstr t) =>
      .ok (s, t, kvs.filter (fun p => !(p.1 == "source" || p.1 == "target")))
    | _, _ => .error .databaseConnectionError
  | _ => .error .databaseConnectionError

def decodeRows (rows : List J) : Except GError (List (String × Attrs)) :=
  rows.foldlM (fun acc j => do
    let r ← decodeNodeRow j
    pure (addNodeNX acc r.1 r.2)) []

/-- `G.add_edge(src, tgt, **attrs)` also creates missing endpoints. -/
def ensureNode (nodes : List (String × Attrs)) (nid : String) : List (String × Attrs) :=
  if nodes.any (fun p => p.1 == nid) then nodes else nodes ++ [(nid, [])]

def decodeLinks (nodes : List (String × Attrs)) (rows : List J) :
    Except GError (List (String × Attrs) × List Edge) :=
  rows.foldlM (fun acc j => do
    let r ← decodeLinkRow j
    pure (ensureNode (ensureNode acc.1 r.1) r.2.1, addEdgeNX acc.2 r.1 r.2.1 r.2.2))
    (nodes, [])

/-- `json_graph.node_link_graph(graph_data, edges="links")` on the
non-directed, non-multigraph path.  A document whose `directed` /
`multigraph` entries are truthy builds a `DiGraph` / `MultiGraph`, a
store shape no claim exercises; those paths are folded into the error
outcome.  A missing `links` entry raises `KeyError` (`data[edges]`). -/
def nodeLinkGraph (gd : List (String × J)) : Except GError (List (String × Attrs) × List Edge) :=
  let multi := ((jLookup gd "multigraph").getD (J.jbool true)).truthy
  let dir := ((jLookup gd "directed").getD (J.jbool false)).truthy
  if multi || dir then .error .databaseConnectionError
  else
    match jLookup gd "nodes", jLookup gd "links" with
    | some (J.jarr nodeRows), some (J.jarr linkRows) => do
      let ns ← decodeRows nodeRows
      decodeLinks ns linkRows
    | _, _ => .error .databaseConnectionError

/-- `metadata.get("nodes_by_label", {})`: each value must be iterable to
build a set; documents the adapter wrote hold lists of strings, and no
claim reaches other shapes, which are folded into the error outcome. -/
def decodeLabelIdx (j : J) : Except GError (List (String × List String)) :=
  match j with
  | .jobj kvs =>
    kvs.foldlM (fun acc p => do
      match p.2 with
      | .jarr vs =>
        let ss ← vs.foldlM (fun ac v => match v with
          | J.jstr s => .ok (ac ++ [s])
          | _ => .error .databaseConnectionError) ([] : List String)
        pure (acc ++ [(p.1, ss.foldl setAdd [])])
      | _ => .error .databaseConnectionError) []
  | _ => .error .databaseConnectionError

/-- `NetworkXAdapter._load_graph` (lines 535-600).  Absent or empty
files keep the initial empty graph; undecodable text falls back to an
empty graph; the structural pre-checks on `graph` / `nodes` / `links`
fall back to an empty graph; any other exception (including the
`AttributeError` from `data.get` on a non-dict top level) is re-raised
as `DatabaseConnectionError`. -/
def loadGraph (fd : FileData) : Except GError Adapter :=
  match fd with
  | .missing => .ok { emptyAdapter with connected := false }
  | .emptyFile => .ok { emptyAdapter with connected := false }
  | .invalidJson => .ok { emptyAdapter with connected := false }
  | .parsed j =>
    match j with
    | .jobj kvs =>
      let graphData := (jLookup kvs "graph").getD (.jobj [])
      match graphData with
      | .jobj gd =>
        if (jLookup gd "nodes").isNone then .ok { emptyAdapter with connected := false }
        else if !(match jLookup gd "nodes" with | some (J.jarr _) => true | _ => false) then
          .ok { emptyAdapter with connected := false }
        else if (jLookup gd "links").isSome &&
            !(match jLookup gd "links" with | some (J.jarr _) => true | _ => false) then
          .ok { emptyAdapter with connected := false }
        else do
          let g ← nodeLinkGraph gd
          let mdJ := (jLookup kvs "metadata").getD (.jobj [])
          let md ← match mdJ with
            | .null => .ok ([] : List (String × J))
            | .jobj m => .ok m
            | _ => .error GError.databaseConnectionError
          let idx ← decodeLabelIdx ((jLookup md "nodes_by_label").getD (.jobj []))
          let cnt := match jLookup md "relationship_counter" with
            | some (J.jnum n) => n
            | some _ => 0      -- a non-integer value is stored as-is in Python; no claim reads it
            | none => 0
          .ok { connected := false, nodes := g.1, edges := g.2, nodesByLabel := idx,
                relCounter := cnt }
      | _ => .ok { emptyAdapter with connected := false }
    | _ => .error .databaseConnectionError

/-- `NetworkXAdapter.connect` (lines 61-75): run `_load_graph`, set the
connected flag; any exception is re-raised as
`DatabaseConnectionError`. -/
def connectModel (fd : FileData) : Except GError Adapter :=
  match loadGraph fd with
  | .ok h => .ok { h with connected := true }
  | .error _ => .error .databaseConnectionError

/-! ## Predicates used by the theorems -/

def isObjB : J → Bool
  | .jobj _ => true
  | _ => false

def isArrB : J → Bool
  | .jarr _ => true
  | _ => false

/-- The closed form of the truncation performed by the collection loop
of `get_nodes_by_label`: a positive limit takes that many rows, the
falsy limit `0` takes everything, and a negative limit stops after the
first appended row. -/
def pyLimit (lim : Option Int) (l : List α) : List α :=
  match lim with
  | none => l
  | some n => if n = 0 then l else if n < 0 then l.take 1 else l.take n.toNat

/-- The matching result rows of `get_nodes_by_label` in storage order,
before truncation and sorting. -/
def matchingRows (h : Adapter) (label : String) (filters : Option Attrs) : List Attrs :=
  (h.nodes.filter (fun p => matchesQuery p.2 label filters)).map (fun p => enrich h p.1 p.2)

/-- At most one stored edge per unordered node pair (the defining shape
of a simple `nx.Graph`). -/
def uniquePairs (h : Adapter) : Prop :=
  h.edges.Pairwise (fun e1 e2 => sameEdge e1 e2.u e2.v = false)

/-- Every stored edge record carries its own endpoints in its
`start_node_id` / `end_node_id` attributes (in either orientation).
This holds for every graph built without overriding those bookkeeping
keys through relationship properties. -/
def endpointsOk (h : Adapter) : Prop :=
  ∀ e ∈ h.edges,
    (alookup e.attrs "start_node_id" = some (J.jstr e.u) ∧
     alookup e.attrs "end_node_id" = some (J.jstr e.v)) ∨
    (alookup e.attrs "start_node_id" = some (J.jstr e.v) ∧
     alookup e.attrs "end_node_id" = some (J.jstr e.u))

/-- No stored edge carries the given relationship id. -/
def relIdAbsent (h : Adapter) (rid : String) : Prop :=
  ∀ e ∈ h.edges, alookup e.attrs "rel_id" ≠ some (J.jstr rid)

/-- An operation whose relationship properties do not override the
`source` / `target` keys reserved by the node-link serialization — the
only keys the save/load pair cannot round-trip. -/
def cleanOp : Op → Prop
  | .opCreateRel _ _ _ p _ =>
    alookup (p.getD []) "source" = none ∧ alookup (p.getD []) "target" = none
  | _ => True

/-- Operations of the round-trip claim's restricted alphabet:
`create_node` and `create_relationship` calls only. -/
def createOnly : Op → Prop
  | .opCreateNode _ _ _ _ => True
  | .opCreateRel _ _ _ _ _ => True
  | _ => False

def keysNodup (a : Attrs) : Prop := (a.map (·.1)).Nodup

/-- Well-formedness of an adapter state sufficient for an exact
save/load round trip: unique node ids, duplicate-free attribute dicts
that avoid the serializer's reserved keys, one edge per unordered pair
with both endpoints present, and duplicate-free label-index sets. -/
def WF (h : Adapter) : Prop :=
  (h.nodes.map (·.1)).Nodup ∧
  (∀ p ∈ h.nodes, keysNodup p.2 ∧ alookup p.2 "id" = none) ∧
  uniquePairs h ∧
  (∀ e ∈ h.edges, keysNodup e.attrs ∧ alookup e.attrs "source" = none ∧
    alookup e.attrs "target" = none) ∧
  (∀ e ∈ h.edges, hasNode h e.u = true ∧ hasNode h e.v = true) ∧
  (∀ p ∈ h.nodesByLabel, p.2.Nodup)

/-- All backup files carry numbers in `1..n`. -/
def bakRangeOk (fs : FS) (n : Nat) : Prop := ∀ p ∈ fs.baks, 1 ≤ p.1 ∧ p.1 ≤ n

/-- One backup file per number. -/
def bakIdxNodup (fs : FS) : Prop := (fs.baks.map (·.1)).Nodup

/-! ## Lemma kit: association-list dictionaries -/

theorem flook_append (l1 l2 : List (String × α)) (k : String) :
    flook (l1 ++ l2) k = (flook l1 k).or (flook l2 k) := by
  unfold flook
  rw [List.find?_append]
  cases l1.find? (fun p => p.1 == k) <;> simp [Option.or]

theorem flook_eq_none_iff (l : List (String × α)) (k : String) :
    flook l k = none ↔ ∀ p ∈ l, p.1 ≠ k := by
  simp [flook, List.find?_eq_none]

theorem alookup_eq_none_iff (a : Attrs) (k : String) :
    alookup a k = none ↔ ∀ p ∈ a, p.1 ≠ k := flook_eq_none_iff a k

theorem flook_cons_ne (q : String × α) (rest : List (String × α)) (k : String)
    (hq : q.1 ≠ k) : flook (q :: rest) k = flook rest k := by
  simp [flook, List.find?_cons, hq]

theorem flook_cons_self (q : String × α) (rest : List (String × α)) :
    flook (q :: rest) q.1 = some q.2 := by
  simp [flook, List.find?_cons]

theorem flook_isSome_iff (l : List (String × α)) (k : String) :
    (flook l k).isSome = l.any (fun p => p.1 == k) := by
  induction l with
  | nil => rfl
  | cons q rest ih =>
    simp only [flook, List.find?_cons, List.any_cons] at ih ⊢
    cases hq : (q.1 == k) <;> simp [ih]

theorem alookup_ainsert_self (a : Attrs) (k : String) (v : J) :
    alookup (ainsert a k v) k = some v := by
  induction a with
  | nil => simp [ainsert, alookup, flook]
  | cons q rest ih =>
    by_cases hq : q.1 = k
    · simp [ainsert, hq, alookup, flook, List.find?_cons]
    · simp only [ainsert, beq_iff_eq, hq, if_false]
      show alookup (q :: ainsert rest k v) k = some v
      rw [show alookup (q :: ainsert rest k v) k = alookup (ainsert rest k v) k from
        flook_cons_ne q _ k hq]
      exact ih

theorem alookup_ainsert_ne (a : Attrs) (k2 k : String) (v : J) (hne : k2 ≠ k) :
    alookup (ainsert a k2 v) k = alookup a k := by
  induction a with
  | nil => simp [ainsert, alookup, flook, hne]
  | cons q rest ih =>
    show flook (ainsert (q :: rest) k2 v) k = flook (q :: rest) k
    by_cases hq : q.1 = k2
    · rw [show ainsert (q :: rest) k2 v = (k2, v) :: rest from by
        simp [ainsert, hq]]
      rw [flook_cons_ne (k2, v) rest k hne, flook_cons_ne q rest k (hq ▸ hne)]
    · rw [show ainsert (q :: rest) k2 v = q :: ainsert rest k2 v from by
        simp [ainsert, hq]]
      by_cases hk : q.1 = k
      · rw [← hk, flook_cons_self, flook_cons_self]
      · rw [flook_cons_ne q _ k hk, flook_cons_ne q rest k hk]
        exact ih

theorem ainsert_eq_append (a : Attrs) (k : String) (v : J) (h : alookup a k = none) :
    ainsert a k v = a ++ [(k, v)] := by
  induction a with
  | nil => rfl
  | cons q rest ih =>
    rw [alookup_eq_none_iff] at h
    have hq : q.1 ≠ k := h q (by simp)
    have hrest : alookup rest k = none := by
      rw [alookup_eq_none_iff]; exact fun p hp => h p (by simp [hp])
    simp only [ainsert, beq_iff_eq, hq, if_false, List.cons_append, List.cons.injEq, true_and]
    exact ih hrest

theorem alookup_aupdate_of_none (a p : Attrs) (k : String) (hp : alookup p k = none) :
    alookup (aupdate a p) k = alookup a k := by
  induction p generalizing a with
  | nil => rfl
  | cons q rest ih =>
    rw [alookup_eq_none_iff] at hp
    have hq : q.1 ≠ k := hp q (by simp)
    have hrest : alookup rest k = none := by
      rw [alookup_eq_none_iff]; exact fun r hr => hp r (by simp [hr])
    show alookup (aupdate (ainsert a q.1 q.2) rest) k = alookup a k
    rw [ih _ hrest, alookup_ainsert_ne _ _ _ _ hq]

theorem alookup_aupdate_of_some (a p : Attrs) (k : String) (v : J)
    (hnd : keysNodup p) (hp : alookup p k = some v) :
    alookup (aupdate a p) k = some v := by
  induction p generalizing a with
  | nil => simp [alookup, flook] at hp
  | cons q rest ih =>
    by_cases hq : q.1 = k
    · have hv : q.2 = v := by
        rw [show alookup (q :: rest) k = some q.2 from hq ▸ flook_cons_self q rest] at hp
        exact Option.some.inj hp
      have hrest : alookup rest k = none := by
        rw [alookup_eq_none_iff]
        intro r hr hrk
        simp only [keysNodup, List.map_cons, List.nodup_cons] at hnd
        exact hnd.1 (hq ▸ hrk ▸ List.mem_map_of_mem (·.1) hr)
      show alookup (aupdate (ainsert a q.1 q.2) rest) k = some v
      rw [alookup_aupdate_of_none _ _ _ hrest, hq, hv, alookup_ainsert_self]
    · have hrest : alookup rest k = some v := by
        rw [show alookup (q :: rest) k = alookup rest k from flook_cons_ne q rest k hq] at hp
        exact hp
      have hnd2 : keysNodup rest := by
        simp only [keysNodup, List.map_cons, List.nodup_cons] at hnd
        exact hnd.2
      show alookup (aupdate (ainsert a q.1 q.2) rest) k = some v
      exact ih (ainsert a q.1 q.2) hnd2 hrest

theorem flook_map_update_ne (l : List (String × α)) (m k : String) (f : α → α) (hkm : k ≠ m) :
    flook (l.map (fun q => if q.1 == m then (q.1, f q.2) else q)) k = flook l k := by
  induction l with
  | nil => rfl
  | cons q rest ih =>
    rw [List.map_cons]
    by_cases hqm : q.1 = m
    · rw [if_pos (by simpa using hqm)]
      have hqk : (q.1, f q.2).1 ≠ k := fun hc => hkm ((hc.symm.trans hqm))
      rw [flook_cons_ne (q.1, f q.2) _ k hqk, flook_cons_ne q rest k hqk]
      exact ih
    · rw [if_neg (by simpa using hqm)]
      by_cases hqk : q.1 = k
      · rw [← hqk, flook_cons_self, flook_cons_self]
      · rw [flook_cons_ne q _ k hqk, flook_cons_ne q rest k hqk]
        exact ih

theorem flook_map_update_self (l : List (String × α)) (m : String) (f : α → α) :
    flook (l.map (fun q => if q.1 == m then (q.1, f q.2) else q)) m = (flook l m).map f := by
  induction l with
  | nil => rfl
  | cons q rest ih =>
    rw [List.map_cons]
    by_cases hqm : q.1 = m
    · rw [if_pos (by simpa using hqm)]
      rw [show flook ((q.1, f q.2) :: List.map _ rest) m = some (f q.2) from by
          rw [← hqm]; exact flook_cons_self (q.1, f q.2) _,
        show flook (q :: rest) m = some q.2 from by rw [← hqm]; exact flook_cons_self q rest]
      rfl
    · rw [if_neg (by simpa using hqm)]
      rw [flook_cons_ne q _ m hqm, flook_cons_ne q rest m hqm]
      exact ih

theorem flook_filter_keyne_ne (l : List (String × α)) (m k : String) (hkm : k ≠ m) :
    flook (l.filter (fun q => !(q.1 == m))) k = flook l k := by
  induction l with
  | nil => rfl
  | cons q rest ih =>
    by_cases hqm : q.1 = m
    · rw [List.filter_cons_of_neg (by simp [hqm]), ih,
        flook_cons_ne q rest k (fun h2 => hkm (h2.symm.trans hqm))]
    · rw [List.filter_cons_of_pos (by simp [hqm])]
      by_cases hqk : q.1 = k
      · rw [← hqk, flook_cons_self, flook_cons_self]
      · rw [flook_cons_ne q _ k hqk, flook_cons_ne q rest k hqk]
        exact ih

theorem flook_filter_keyne_self (l : List (String × α)) (m : String) :
    flook (l.filter (fun q => !(q.1 == m))) m = none := by
  induction l with
  | nil => rfl
  | cons q rest ih =>
    by_cases hqm : q.1 = m
    · rw [List.filter_cons_of_neg (by simp [hqm])]
      exact ih
    · rw [List.filter_cons_of_pos (by simp [hqm]), flook_cons_ne q _ m hqm]
      exact ih

theorem hasNode_eq_isSome (h : Adapter) (n : String) :
    hasNode h n = (flook h.nodes n).isSome := by
  rw [hasNode, flook_isSome_iff]

/-! ## C6: direction validation in `get_relationships` -/

/-- C6 (counterexample): on a connected handle, an invalid direction
together with a nonexistent node returns `[]` instead of failing with
`ValidationError` — the existence check precedes the direction check. -/
theorem c6_counterexample :
    emptyAdapter.connected = true ∧
    "sideways" ≠ "incoming" ∧ "sideways" ≠ "outgoing" ∧ "sideways" ≠ "both" ∧
    getRelationships emptyAdapter "x" none "sideways" = .ok [] :=
  ⟨rfl, by decide, by decide, by decide, rfl⟩

/-- C6 (amended): on a connected handle, a direction outside
{incoming, outgoing, both} makes `get_relationships` fail with
`ValidationError` when the queried node exists; when the node does not
exist the call returns `[]` without validating the direction. -/
theorem c6_amended (h : Adapter) (nid : String) (relType : Option String)
    (direction : String) (hc : h.connected = true)
    (h1 : direction ≠ "incoming") (h2 : direction ≠ "outgoing") (h3 : direction ≠ "both") :
    (hasNode h nid = true → getRelationships h nid relType direction = .error .validationError) ∧
    (hasNode h nid = false → getRelationships h nid relType direction = .ok []) := by
  unfold getRelationships
  rw [hc]
  constructor
  · intro hn
    rw [hn]
    simp [beq_iff_eq, h1, h2, h3]
  · intro hn
    rw [hn]
    simp

/-- C6 (witness for the amended theorem). -/
theorem c6_amended_witness :
    getRelationships (reach [Op.opCreateNode "Rule" (.dict []) (some "a") "g"])
      "a" none "sideways" = .error .validationError ∧
    getRelationships (reach [Op.opCreateNode "Rule" (.dict []) (some "a") "g"])
      "zz" none "sideways" = .ok [] :=
  ⟨(c6_amended _ "a" none "sideways" rfl (by decide) (by decide) (by decide)).1 rfl,
   (c6_amended _ "zz" none "sideways" rfl (by decide) (by decide) (by decide)).2 rfl⟩

/-! ## C9: `create_node` validation and fresh ids -/

/-- C9: on a connected handle, `create_node` returns the generated
UUID string when no id is supplied (provided the generated id is not
already taken); it fails with `ValidationError` when the properties are
not a dict, when they contain one of the reserved keys `id`, `_id`,
`node_id`, or when the supplied id already names a node — no upsert
occurs, the error is raised before any mutation. -/
theorem c9_theorem (h : Adapter) (label : String) (a : Attrs)
    (nidArg : Option String) (nid genId : String) (hc : h.connected = true) :
    (hasNode h genId = false → validateNodeProperties (.dict a) = .ok () →
      createNode h label (.dict a) none genId =
        .ok (genId, { h with
          nodes := h.nodes ++
            [(genId, aupdate [("node_id", J.jstr genId), ("label", J.jstr label)] a)],
          nodesByLabel := idxAdd h.nodesByLabel label genId })) ∧
    (createNode h label .nonDict nidArg genId = .error .validationError) ∧
    ((alookup a "id").isSome ∨ (alookup a "_id").isSome ∨ (alookup a "node_id").isSome →
      createNode h label (.dict a) nidArg genId = .error .validationError) ∧
    (hasNode h nid = true → validateNodeProperties (.dict a) = .ok () →
      createNode h label (.dict a) (some nid) genId = .error .validationError) := by
  refine ⟨?_, ?_, ?_, ?_⟩
  · intro hn hval
    unfold createNode
    rw [hc, hval]
    simp [hn]
  · unfold createNode
    rw [hc]
    rfl
  · intro hres
    unfold createNode
    rw [hc]
    have hval : validateNodeProperties (.dict a) = .error .validationError := by
      unfold validateNodeProperties
      rcases hres with hr | hr | hr <;> simp [hr]
    rw [hval]
    simp
  · intro hn hval
    unfold createNode
    rw [hc, hval]
    simp [hn]

/-- C9 (witness). -/
theorem c9_witness :
    createNode emptyAdapter "Rule" (.dict [("name", J.jstr "x")]) none "uuid-1" =
      .ok ("uuid-1", { emptyAdapter with
        nodes := [("uuid-1", [("node_id", J.jstr "uuid-1"), ("label", J.jstr "Rule"),
                              ("name", J.jstr "x")])],
        nodesByLabel := [("Rule", ["uuid-1"])] }) ∧
    createNode emptyAdapter "Rule" .nonDict none "uuid-1" = .error .validationError ∧
    createNode emptyAdapter "Rule" (.dict [("id", J.jstr "z")]) none "uuid-1" =
      .error .validationError ∧
    createNode (reach [Op.opCreateNode "Rule" (.dict []) (some "a") "g"]) "Rule"
      (.dict []) (some "a") "uuid-2" = .error .validationError := by
  refine ⟨?_, ?_, ?_, ?_⟩
  · exact (c9_theorem emptyAdapter "Rule" [("name", J.jstr "x")] none "zz" "uuid-1" rfl).1
      rfl rfl
  · exact (c9_theorem emptyAdapter "Rule" [] none "zz" "uuid-1" rfl).2.1
  · exact (c9_theorem emptyAdapter "Rule" [("id", J.jstr "z")] none "zz" "uuid-1" rfl).2.2.1
      (Or.inl rfl)
  · exact (c9_theorem (reach [Op.opCreateNode "Rule" (.dict []) (some "a") "g"]) "Rule"
      [] none "a" "uuid-2" rfl).2.2.2 rfl rfl

/-! ## C1: failed saves and the original data file -/

/-- C1 (counterexample): with backups enabled (count 3) and an existing
data file, a save that fails while writing the temporary file leaves the
data path empty — the original content was moved to backup 1 by the
rotation that runs before the write, so the original file is not left
untouched as the claim requires. -/
theorem c1_counterexample :
    saveGraph ⟨some "orig", none, []⟩ 3 "new" true =
      (⟨none, none, [(1, "orig")]⟩, some GError.databaseConnectionError) ∧
    (⟨some "orig", none, []⟩ : FS).dataF ≠ (⟨none, none, [(1, "orig")]⟩ : FS).dataF :=
  ⟨rfl, by decide⟩

theorem rotateStep_dataF (fs : FS) (i : Nat) : (rotateStep fs i).dataF = fs.dataF := by
  unfold rotateStep
  cases fs.bakGet i <;> rfl

theorem rotateStep_tmpF (fs : FS) (i : Nat) : (rotateStep fs i).tmpF = fs.tmpF := by
  unfold rotateStep
  cases fs.bakGet i <;> rfl

theorem foldl_rotateStep_dataF (l : List Nat) (fs : FS) :
    (l.foldl rotateStep fs).dataF = fs.dataF := by
  induction l generalizing fs with
  | nil => rfl
  | cons i rest ih => rw [List.foldl_cons, ih, rotateStep_dataF]

theorem foldl_rotateStep_tmpF (l : List Nat) (fs : FS) :
    (l.foldl rotateStep fs).tmpF = fs.tmpF := by
  induction l generalizing fs with
  | nil => rfl
  | cons i rest ih => rw [List.foldl_cons, ih, rotateStep_tmpF]

theorem bakGet_bakPut_self (fs : FS) (i : Nat) (c : String) :
    (fs.bakPut i c).bakGet i = some c := by
  unfold FS.bakPut FS.bakGet
  rw [List.find?_append]
  have hnone : (fs.baks.filter (fun p => !(p.1 == i))).find? (fun p => p.1 == i) = none := by
    rw [List.find?_eq_none]
    intro p hp
    have := List.of_mem_filter hp
    simpa using this
  rw [hnone]
  simp

/-- `_create_backup` on an existing data file: the data path becomes
empty, its old content becomes backup 1, and the temp file is
untouched. -/
theorem createBackup_spec (fs : FS) (n : Nat) (s : String) (hd : fs.dataF = some s) :
    (createBackup fs n).dataF = none ∧ (createBackup fs n).bakGet 1 = some s ∧
    (createBackup fs n).tmpF = fs.tmpF := by
  unfold createBackup
  have h1 : ((descRange n).foldl rotateStep fs).dataF = some s := by
    rw [foldl_rotateStep_dataF]; exact hd
  rw [h1]
  refine ⟨rfl, ?_, ?_⟩
  · exact bakGet_bakPut_self _ 1 s
  · exact foldl_rotateStep_tmpF _ fs

/-- C1 (amended): a save that fails while writing the temporary file
(before the final rename) raises the persistence error
(`DatabaseConnectionError`, the spec's `PersistenceError`) and leaves
no temporary file; the original data file is unchanged only when no
backup rotation ran (no existing data file, or backup count 0) — when
backups are enabled and the data file existed, its content has been
moved to backup 1 and the data path is left empty. -/
theorem c1_amended (fs : FS) (n : Nat) (c : String) :
    (saveGraph fs n c true).2 = some GError.databaseConnectionError ∧
    (saveGraph fs n c true).1.tmpF = none ∧
    (fs.dataF = none ∨ n = 0 →
      (saveGraph fs n c true).1.dataF = fs.dataF ∧ (saveGraph fs n c true).1.baks = fs.baks) ∧
    (∀ s, fs.dataF = some s → 0 < n →
      (saveGraph fs n c true).1.bakGet 1 = some s ∧ (saveGraph fs n c true).1.dataF = none) := by
  refine ⟨rfl, rfl, ?_, ?_⟩
  · intro hcase
    unfold saveGraph
    have hcond : (fs.dataF.isSome && decide (0 < n)) = false := by
      rcases hcase with hc2 | hc2 <;> simp [hc2]
    rw [hcond]
    exact ⟨rfl, rfl⟩
  · intro s hd hn
    unfold saveGraph
    have hcond : (fs.dataF.isSome && decide (0 < n)) = true := by simp [hd, hn]
    rw [hcond]
    obtain ⟨h1, h2, _⟩ := createBackup_spec fs n s hd
    exact ⟨h2, h1⟩

/-- C1 (witness for the amended theorem). -/
theorem c1_amended_witness :
    (saveGraph ⟨some "orig", none, []⟩ 0 "new" true).1.dataF = some "orig" ∧
    (saveGraph ⟨some "orig", none, []⟩ 3 "new" true).1.bakGet 1 = some "orig" ∧
    (saveGraph ⟨some "orig", none, []⟩ 3 "new" true).2 =
      some GError.databaseConnectionError :=
  ⟨((c1_amended ⟨some "orig", none, []⟩ 0 "new").2.2.1 (Or.inr rfl)).1,
   ((c1_amended ⟨some "orig", none, []⟩ 3 "new").2.2.2 "orig" rfl (by decide)).1,
   (c1_amended ⟨some "orig", none, []⟩ 3 "new").1⟩

/-! ## C8: backup rotation bound -/

theorem bakPut_range (fs : FS) (n i : Nat) (c : String) (hok : bakRangeOk fs n)
    (h1 : 1 ≤ i) (h2 : i ≤ n) : bakRangeOk (fs.bakPut i c) n := by
  intro p hp
  unfold FS.bakPut at hp
  rcases List.mem_append.mp hp with hp2 | hp2
  · exact hok p (List.mem_of_mem_filter hp2)
  · have : p = (i, c) := by simpa using hp2
    rw [this]
    exact ⟨h1, h2⟩

theorem bakDel_range (fs : FS) (n i : Nat) (hok : bakRangeOk fs n) :
    bakRangeOk (fs.bakDel i) n := by
  intro p hp
  exact hok p (List.mem_of_mem_filter hp)

theorem bakPut_nodup (fs : FS) (i : Nat) (c : String) (hnd : bakIdxNodup fs) :
    bakIdxNodup (fs.bakPut i c) := by
  unfold bakIdxNodup FS.bakPut
  rw [List.map_append, List.nodup_append]
  refine ⟨hnd.sublist ((List.filter_sublist fs.baks).map (·.1)),
    List.nodup_singleton _, ?_⟩
  intro x hx hmem
  obtain ⟨p, hp, hpx⟩ := List.mem_map.mp hx
  have hpne : ¬(p.1 = i) := by simpa using List.of_mem_filter hp
  have hxi : x = i := by simpa using hmem
  exact hpne (hpx.trans hxi)

theorem bakDel_nodup (fs : FS) (i : Nat) (hnd : bakIdxNodup fs) :
    bakIdxNodup (fs.bakDel i) := by
  unfold bakIdxNodup FS.bakDel
  exact hnd.sublist ((List.filter_sublist fs.baks).map (·.1))

theorem rotateStep_range (fs : FS) (n i : Nat) (hok : bakRangeOk fs n) (hi : i + 1 ≤ n) :
    bakRangeOk (rotateStep fs i) n := by
  unfold rotateStep
  cases fs.bakGet i with
  | none => exact hok
  | some c =>
    exact bakPut_range _ n (i + 1) c (bakDel_range fs n i hok) (Nat.le_add_left 1 i) hi

theorem rotateStep_nodup (fs : FS) (i : Nat) (hnd : bakIdxNodup fs) :
    bakIdxNodup (rotateStep fs i) := by
  unfold rotateStep
  cases fs.bakGet i with
  | none => exact hnd
  | some c => exact bakPut_nodup _ _ c (bakDel_nodup fs i hnd)

theorem mem_descRange (n i : Nat) (hi : i ∈ descRange n) : 1 ≤ i ∧ i + 1 ≤ n := by
  induction n with
  | zero => simp [descRange] at hi
  | succ m ih =>
    match m, hi with
    | 0, hi => simp [descRange] at hi
    | m2 + 1, hi =>
      rw [descRange] at hi
      rcases List.mem_cons.mp hi with hi2 | hi2
      · omega
      · have := ih hi2
        omega

theorem foldl_rotate_range (n : Nat) (l : List Nat) (hl : ∀ i ∈ l, i + 1 ≤ n) (fs : FS)
    (hok : bakRangeOk fs n) : bakRangeOk (l.foldl rotateStep fs) n := by
  induction l generalizing fs with
  | nil => exact hok
  | cons i rest ih =>
    rw [List.foldl_cons]
    exact ih (fun j hj => hl j (by simp [hj])) _
      (rotateStep_range fs n i hok (hl i (by simp)))

theorem foldl_rotate_nodup (l : List Nat) (fs : FS) (hnd : bakIdxNodup fs) :
    bakIdxNodup (l.foldl rotateStep fs) := by
  induction l generalizing fs with
  | nil => exact hnd
  | cons i rest ih =>
    rw [List.foldl_cons]
    exact ih _ (rotateStep_nodup fs i hnd)

theorem createBackup_range (fs : FS) (n : Nat) (hok : bakRangeOk fs n) (hn : 0 < n) :
    bakRangeOk (createBackup fs n) n := by
  unfold createBackup
  have hfold : bakRangeOk ((descRange n).foldl rotateStep fs) n :=
    foldl_rotate_range n _ (fun i hi => (mem_descRange n i hi).2) fs hok
  cases ((descRange n).foldl rotateStep fs).dataF with
  | none => exact hfold
  | some c =>
    intro p hp
    exact bakPut_range _ n 1 c (bakDel_range _ n 1 hfold) (Nat.le_refl 1) hn p hp

theorem createBackup_nodup (fs : FS) (n : Nat) (hnd : bakIdxNodup fs) :
    bakIdxNodup (createBackup fs n) := by
  unfold createBackup
  have hfold : bakIdxNodup ((descRange n).foldl rotateStep fs) := foldl_rotate_nodup _ fs hnd
  cases ((descRange n).foldl rotateStep fs).dataF with
  | none => exact hfold
  | some c => exact bakPut_nodup _ 1 c (bakDel_nodup _ 1 hfold)

theorem saveGraph_range (fs : FS) (n : Nat) (c : String) (w : Bool) (hok : bakRangeOk fs n) :
    bakRangeOk (saveGraph fs n c w).1 n := by
  unfold saveGraph
  by_cases hcond : (fs.dataF.isSome && decide (0 < n)) = true
  · rw [hcond]
    have hn : 0 < n := by
      have := (Bool.and_eq_true _ _).mp hcond
      exact of_decide_eq_true this.2
    have hcb := createBackup_range fs n hok hn
    cases w <;> exact hcb
  · rw [Bool.not_eq_true] at hcond
    rw [hcond]
    cases w <;> exact hok

theorem saveGraph_nodup (fs : FS) (n : Nat) (c : String) (w : Bool) (hnd : bakIdxNodup fs) :
    bakIdxNodup (saveGraph fs n c w).1 := by
  unfold saveGraph
  by_cases hcond : (fs.dataF.isSome && decide (0 < n)) = true
  · rw [hcond]
    have hcb := createBackup_nodup fs n hnd
    cases w <;> exact hcb
  · rw [Bool.not_eq_true] at hcond
    rw [hcond]
    cases w <;> exact hnd

theorem saveGraph_baks_zero (fs : FS) (c : String) (w : Bool) :
    (saveGraph fs 0 c w).1.baks = fs.baks := by
  unfold saveGraph
  have hcond : (fs.dataF.isSome && decide (0 < 0)) = false := by simp
  rw [hcond]
  cases w <;> rfl

theorem baks_length_le (l : List (Nat × String)) (n : Nat)
    (hrange : ∀ p ∈ l, 1 ≤ p.1 ∧ p.1 ≤ n) (hnd : (l.map (·.1)).Nodup) : l.length ≤ n := by
  have h1 : l.length = (l.map (·.1)).length := (List.length_map _ _).symm
  rw [h1, ← List.toFinset_card_of_nodup hnd]
  have hsub : (l.map (·.1)).toFinset ⊆ Finset.Icc 1 n := by
    intro x hx
    rw [List.mem_toFinset] at hx
    obtain ⟨p, hp, hpx⟩ := List.mem_map.mp hx
    have hb := hrange p hp
    rw [Finset.mem_Icc]
    omega
  calc (l.map (·.1)).toFinset.card
      ≤ (Finset.Icc 1 n).card := Finset.card_le_card hsub
    _ = n := by rw [Nat.card_Icc]; omega

theorem runSaves_baks_zero (saves : List (String × Bool)) (fs : FS) :
    (runSaves fs 0 saves).baks = fs.baks := by
  induction saves generalizing fs with
  | nil => rfl
  | cons cw rest ih =>
    show (runSaves (saveGraph fs 0 cw.1 cw.2).1 0 rest).baks = fs.baks
    rw [ih _, saveGraph_baks_zero]

/-- C8: starting from a file system whose backups (if any) are numbered
within `1..N` with one file per number, any sequence of save cycles with
configured backup count `N` keeps all backups within `1..N`, so their
count never exceeds `N`; a save onto an existing data file with `N > 0`
makes the current content backup 1 (rotation runs highest-to-lowest
before the write); and `N = 0` disables backups entirely (no save ever
touches a backup path). -/
theorem c8_theorem (fs : FS) (n : Nat) (saves : List (String × Bool)) (c : String) (w : Bool)
    (hrange : bakRangeOk fs n) (hnd : bakIdxNodup fs) :
    bakRangeOk (runSaves fs n saves) n ∧
    (runSaves fs n saves).baks.length ≤ n ∧
    (n = 0 → (runSaves fs n saves).baks = fs.baks) ∧
    (∀ s, fs.dataF = some s → 0 < n → (saveGraph fs n c w).1.bakGet 1 = some s) := by
  have hpres : ∀ sv : List (String × Bool), ∀ f : FS, bakRangeOk f n → bakIdxNodup f →
      bakRangeOk (runSaves f n sv) n ∧ bakIdxNodup (runSaves f n sv) := by
    intro sv
    induction sv with
    | nil => intro f h1 h2; exact ⟨h1, h2⟩
    | cons cw rest ih =>
      intro f h1 h2
      exact ih _ (saveGraph_range f n cw.1 cw.2 h1) (saveGraph_nodup f n cw.1 cw.2 h2)
  obtain ⟨hr, hn2⟩ := hpres saves fs hrange hnd
  refine ⟨hr, baks_length_le _ n hr hn2, ?_, ?_⟩
  · intro h0
    subst h0
    exact runSaves_baks_zero saves fs
  · intro s hd hn3
    unfold saveGraph
    have hcond : (fs.dataF.isSome && decide (0 < n)) = true := by simp [hd, hn3]
    rw [hcond]
    have hb := (createBackup_spec fs n s hd).2.1
    cases w <;> exact hb

/-! ## C2: corruption tolerance of `connect` -/

/-- C2 (counterexample): a data file containing `[]` — valid JSON whose
top-level structure is malformed (not an object) — makes `connect()`
fail with `DatabaseConnectionError` instead of succeeding with an empty
graph: `data.get("graph", {})` raises `AttributeError` on a list, which
`_load_graph` re-raises as `DatabaseConnectionError`. -/
theorem c2_counterexample :
    connectModel (.parsed (.jarr [])) = .error .databaseConnectionError := rfl

/-- C2 (amended): `connect()` succeeds with an empty graph when the data
file is undecodable JSON, or parses to an object whose `graph` entry is
missing or not an object, or whose `graph.nodes` is missing or not a
list, or whose `graph.links` is present but not a list; however, when
the file parses to valid JSON that is not an object at top level,
`connect()` fails with `DatabaseConnectionError`. -/
theorem c2_amended (j gv nv lv : J) (kvs gd : List (String × J)) :
    connectModel FileData.invalidJson = .ok emptyAdapter ∧
    (isObjB j = false → connectModel (.parsed j) = .error .databaseConnectionError) ∧
    (jLookup kvs "graph" = none → connectModel (.parsed (.jobj kvs)) = .ok emptyAdapter) ∧
    (jLookup kvs "graph" = some gv → isObjB gv = false →
      connectModel (.parsed (.jobj kvs)) = .ok emptyAdapter) ∧
    (jLookup kvs "graph" = some (.jobj gd) → jLookup gd "nodes" = none →
      connectModel (.parsed (.jobj kvs)) = .ok emptyAdapter) ∧
    (jLookup kvs "graph" = some (.jobj gd) → jLookup gd "nodes" = some nv →
      isArrB nv = false → connectModel (.parsed (.jobj kvs)) = .ok emptyAdapter) ∧
    (jLookup kvs "graph" = some (.jobj gd) → jLookup gd "links" = some lv →
      isArrB lv = false → connectModel (.parsed (.jobj kvs)) = .ok emptyAdapter) := by
  refine ⟨rfl, ?_, ?_, ?_, ?_, ?_, ?_⟩
  · intro hj
    cases j <;> first | rfl | simp [isObjB] at hj
  · intro hg
    have hl : loadGraph (.parsed (.jobj kvs)) = .ok { emptyAdapter with connected := false } := by
      simp only [loadGraph, hg, Option.getD]
      rfl
    unfold connectModel
    rw [hl]
    rfl
  · intro hg hgv
    have hl : loadGraph (.parsed (.jobj kvs)) = .ok { emptyAdapter with connected := false } := by
      simp only [loadGraph, hg, Option.getD]
      cases gv <;> first | rfl | simp [isObjB] at hgv
    unfold connectModel
    rw [hl]
    rfl
  · intro hg hn
    have hl : loadGraph (.parsed (.jobj kvs)) = .ok { emptyAdapter with connected := false } := by
      simp only [loadGraph, hg, Option.getD, hn]
      rfl
    unfold connectModel
    rw [hl]
    rfl
  · intro hg hn hnv
    have hl : loadGraph (.parsed (.jobj kvs)) = .ok { emptyAdapter with connected := false } := by
      simp only [loadGraph, hg, Option.getD, hn]
      cases nv <;> first | rfl | simp [isArrB] at hnv
    unfold connectModel
    rw [hl]
    rfl
  · intro hg hlinks hlv
    have hl : loadGraph (.parsed (.jobj kvs)) = .ok { emptyAdapter with connected := false } := by
      simp only [loadGraph, hg, Option.getD]
      cases hn : jLookup gd "nodes" with
      | none => rfl
      | some nv2 =>
        cases nv2 <;> first
        | rfl
        | (rw [hlinks]; cases lv <;> first | rfl | simp [isArrB] at hlv)
    unfold connectModel
    rw [hl]
    rfl

/-- C2 (witness for the amended theorem). -/
theorem c2_amended_witness :
    connectModel FileData.invalidJson = .ok emptyAdapter ∧
    connectModel (.parsed (.jstr "junk")) = .error .databaseConnectionError ∧
    connectModel (.parsed (.jobj [("other", .jnum 1)])) = .ok emptyAdapter ∧
    connectModel (.parsed (.jobj [("graph", .jnum 5)])) = .ok emptyAdapter ∧
    connectModel (.parsed (.jobj [("graph", .jobj [("foo", .jnum 1)])])) = .ok emptyAdapter ∧
    connectModel (.parsed (.jobj [("graph", .jobj [("nodes", .jnum 7)])])) = .ok emptyAdapter ∧
    connectModel (.parsed (.jobj [("graph",
      .jobj [("nodes", .jarr []), ("links", .jnum 3)])])) = .ok emptyAdapter := by
  refine ⟨(c2_amended .null .null .null .null [] []).1,
    (c2_amended (.jstr "junk") .null .null .null [] []).2.1 rfl,
    (c2_amended .null .null .null .null [("other", .jnum 1)] []).2.2.1 rfl,
    (c2_amended .null (.jnum 5) .null .null [("graph", .jnum 5)] []).2.2.2.1 rfl rfl,
    (c2_amended .null .null .null .null [("graph", .jobj [("foo", .jnum 1)])]
      [("foo", .jnum 1)]).2.2.2.2.1 rfl rfl,
    (c2_amended .null .null (.jnum 7) .null [("graph", .jobj [("nodes", .jnum 7)])]
      [("nodes", .jnum 7)]).2.2.2.2.2.1 rfl rfl rfl,
    (c2_amended .null .null .null (.jnum 3)
      [("graph", .jobj [("nodes", .jarr []), ("links", .jnum 3)])]
      [("nodes", .jarr []), ("links", .jnum 3)]).2.2.2.2.2.2 rfl rfl rfl⟩

/-! ## Inversion lemmas for the store operations -/

theorem createNode_ok_inv (h : Adapter) (l : String) (p : PropsArg) (n : Option String)
    (g rid : String) (h2 : Adapter) (heq : createNode h l p n g = .ok (rid, h2)) :
    ∃ a : Attrs, p = .dict a ∧ validateNodeProperties p = .ok () ∧
      hasNode h rid = false ∧ rid = n.getD g ∧
      h2 = { h with
        nodes := h.nodes ++
          [(rid, aupdate [("node_id", J.jstr rid), ("label", J.jstr l)] a)],
        nodesByLabel := idxAdd h.nodesByLabel l rid } := by
  unfold createNode at heq
  split at heq
  · simp at heq
  · split at heq
    · simp at heq
    · simp at heq
    next u a2 pa hval2 =>
      split at heq
      · simp at heq
      next hn =>
        obtain ⟨hrid, hstate⟩ :=
          (Prod.mk.injEq _ _ _ _).mp ((Except.ok.injEq _ _).mp heq)
        have hn2 : hasNode h (n.getD g) = false := by simpa using hn
        cases a2
        refine ⟨pa, rfl, hval2, ?_, hrid.symm, ?_⟩
        · rw [← hrid]; exact hn2
        · rw [← hstate, ← hrid]

theorem updateNode_ok_inv (h : Adapter) (nid : String) (p : PropsArg) (b : Bool)
    (h2 : Adapter) (heq : updateNode h nid p = .ok (b, h2)) :
    (b = false ∧ h2 = h ∧ hasNode h nid = false) ∨
    (b = true ∧ hasNode h nid = true ∧ ∃ a : Attrs, p = .dict a ∧
      h2 = { h with
        nodes := h.nodes.map (fun q => if q.1 == nid then (q.1, aupdate q.2 a) else q) }) := by
  unfold updateNode at heq
  split at heq
  · simp at heq
  · split at heq
    next hn =>
      obtain ⟨hb, hstate⟩ := (Prod.mk.injEq _ _ _ _).mp ((Except.ok.injEq _ _).mp heq)
      have hn2 : hasNode h nid = false := by simpa using hn
      exact Or.inl ⟨hb.symm, hstate.symm, hn2⟩
    next hn =>
      split at heq
      · simp at heq
      · simp at heq
      next u a2 pa hval2 =>
        obtain ⟨hb, hstate⟩ := (Prod.mk.injEq _ _ _ _).mp ((Except.ok.injEq _ _).mp heq)
        have hn2 : hasNode h nid = true := by simpa using hn
        exact Or.inr ⟨hb.symm, hn2, pa, rfl, hstate.symm⟩

theorem deleteNode_ok_inv (h : Adapter) (nid : String) (b : Bool) (h2 : Adapter)
    (heq : deleteNode h nid = .ok (b, h2)) :
    (b = false ∧ h2 = h ∧ nodeAttrs h nid = none) ∨
    (b = true ∧ (nodeAttrs h nid).isSome ∧
      h2.connected = h.connected ∧
      h2.nodes = h.nodes.filter (fun q => !(q.1 == nid)) ∧
      h2.edges = h.edges.filter (fun e => !(e.u == nid || e.v == nid)) ∧
      h2.relCounter = h.relCounter ∧
      (h2.nodesByLabel = h.nodesByLabel ∨
        ∃ s, h2.nodesByLabel = idxDiscard h.nodesByLabel s nid)) := by
  unfold deleteNode at heq
  split at heq
  next hconn0 => simp at heq
  next hconn0 =>
    have hconn : h.connected = true := by simpa using hconn0
    split at heq
    next hna =>
      obtain ⟨hb, hstate⟩ := (Prod.mk.injEq _ _ _ _).mp ((Except.ok.injEq _ _).mp heq)
      exact Or.inl ⟨hb.symm, hstate.symm, hna⟩
    next attrs hna =>
      refine Or.inr ?_
      split at heq
      next xs hlab =>
        split at heq
        · simp at heq
        · obtain ⟨hb, hstate⟩ := (Prod.mk.injEq _ _ _ _).mp ((Except.ok.injEq _ _).mp heq)
          rw [← hstate]
          exact ⟨hb.symm, by rw [hna]; rfl, rfl, rfl, rfl, rfl, Or.inl rfl⟩
      next kvs hlab =>
        split at heq
        · simp at heq
        · obtain ⟨hb, hstate⟩ := (Prod.mk.injEq _ _ _ _).mp ((Except.ok.injEq _ _).mp heq)
          rw [← hstate]
          exact ⟨hb.symm, by rw [hna]; rfl, rfl, rfl, rfl, rfl, Or.inl rfl⟩
      next s hlab =>
        split at heq
        next hcond =>
          obtain ⟨hb, hstate⟩ := (Prod.mk.injEq _ _ _ _).mp ((Except.ok.injEq _ _).mp heq)
          rw [← hstate]
          exact ⟨hb.symm, by rw [hna]; rfl, rfl, rfl, rfl, rfl, Or.inr ⟨s, rfl⟩⟩
        next hcond =>
          obtain ⟨hb, hstate⟩ := (Prod.mk.injEq _ _ _ _).mp ((Except.ok.injEq _ _).mp heq)
          rw [← hstate]
          exact ⟨hb.symm, by rw [hna]; rfl, rfl, rfl, rfl, rfl, Or.inl rfl⟩
      next hother =>
        obtain ⟨hb, hstate⟩ := (Prod.mk.injEq _ _ _ _).mp ((Except.ok.injEq _ _).mp heq)
        rw [← hstate]
        exact ⟨hb.symm, by rw [hna]; rfl, rfl, rfl, rfl, rfl, Or.inl rfl⟩

theorem createRelationship_ok_inv (h : Adapter) (s e ty : String) (p : Option Attrs)
    (relId rid : String) (h2 : Adapter)
    (heq : createRelationship h s e ty p relId = .ok (rid, h2)) :
    hasNode h s = true ∧ hasNode h e = true ∧ rid = relId ∧
    h2 = { h with
      edges := addEdgeNX h.edges s e (aupdate
        [("rel_id", J.jstr relId), ("type", J.jstr ty),
         ("start_node_id", J.jstr s), ("end_node_id", J.jstr e)] (p.getD [])),
      relCounter := h.relCounter + 1 } := by
  unfold createRelationship at heq
  split at heq
  · simp at heq
  · split at heq
    · simp at heq
    next hs =>
      split at heq
      · simp at heq
      next he =>
        split at heq
        · simp at heq
        next hty =>
          obtain ⟨hrid, hstate⟩ := (Prod.mk.injEq _ _ _ _).mp ((Except.ok.injEq _ _).mp heq)
          have hs2 : hasNode h s = true := by simpa using hs
          have he2 : hasNode h e = true := by simpa using he
          exact ⟨hs2, he2, hrid.symm, hstate.symm⟩

theorem deleteRelationship_ok_inv (h : Adapter) (rid : String) (b : Bool) (h2 : Adapter)
    (heq : deleteRelationship h rid = .ok (b, h2)) :
    (b = false ∧ h2 = h ∧
      h.edges.any (fun e => alookup e.attrs "rel_id" == some (J.jstr rid)) = false) ∨
    (b = true ∧ h2 = { h with
      edges := removeFirstEdge
        (fun e => alookup e.attrs "rel_id" == some (J.jstr rid)) h.edges }) := by
  unfold deleteRelationship at heq
  split at heq
  · simp at heq
  · split at heq
    next hany =>
      obtain ⟨hb, hstate⟩ := (Prod.mk.injEq _ _ _ _).mp ((Except.ok.injEq _ _).mp heq)
      exact Or.inr ⟨hb.symm, hstate.symm⟩
    next hany =>
      obtain ⟨hb, hstate⟩ := (Prod.mk.injEq _ _ _ _).mp ((Except.ok.injEq _ _).mp heq)
      rw [Bool.not_eq_true] at hany
      exact Or.inl ⟨hb.symm, hstate.symm, hany⟩

theorem clearAll_ok_inv (h : Adapter) (u : Unit) (h2 : Adapter)
    (heq : clearAll h = .ok (u, h2)) :
    h2 = { h with nodes := [], edges := [], nodesByLabel := [], relCounter := 0 } := by
  unfold clearAll at heq
  split at heq
  · simp at heq
  · exact ((Prod.mk.injEq _ _ _ _).mp ((Except.ok.injEq _ _).mp heq)).2.symm


/-! ## C4: label immutability -/

/-- C4 (counterexample): `update_node` changes a node's label when the
update properties contain the key `label` (which is not reserved): a
node created with label `Rule` carries label `Other` after the update. -/
theorem c4_counterexample :
    nodeLabel (reach [Op.opCreateNode "Rule" (.dict []) (some "a") "g"]) "a" =
      some (.jstr "Rule") ∧
    nodeLabel (reach [Op.opCreateNode "Rule" (.dict []) (some "a") "g",
      Op.opUpdateNode "a" (.dict [("label", .jstr "Other")])]) "a" =
      some (.jstr "Other") := ⟨rfl, rfl⟩

/-- C4 (amended): a node's label is unchanged by every store operation
under which the node survives, except an `update_node` on that node
whose properties map contains the key `label` — that call overwrites the
label attribute (validation only rejects `id`, `_id`, `node_id`). -/
theorem c4_amended (h : Adapter) (op : Op) (nid : String)
    (hpre : hasNode h nid = true) (hpost : hasNode (applyOp h op) nid = true)
    (hno : ∀ p : Attrs, op = Op.opUpdateNode nid (PropsArg.dict p) →
      alookup p "label" = none) :
    nodeLabel (applyOp h op) nid = nodeLabel h nid := by
  have hpreSome : (flook h.nodes nid).isSome := by rw [← hasNode_eq_isSome]; exact hpre
  cases op with
  | opCreateNode l p n g =>
    show nodeLabel (match createNode h l p n g with
      | .ok r => r.2 | .error _ => h) nid = nodeLabel h nid
    cases hres : createNode h l p n g with
    | error e => rfl
    | ok r =>
      obtain ⟨rid, h2⟩ := r
      obtain ⟨a, hpa, hval, hfresh, hrid, hstate⟩ := createNode_ok_inv h l p n g rid h2 hres
      show nodeLabel h2 nid = nodeLabel h nid
      subst hstate
      unfold nodeLabel nodeAttrs
      show (flook (h.nodes ++ _) nid).bind _ = _
      rw [flook_append]
      cases hfl : flook h.nodes nid with
      | none => rw [hfl] at hpreSome; simp at hpreSome
      | some a2 => rfl
  | opUpdateNode m p =>
    show nodeLabel (match updateNode h m p with
      | .ok r => r.2 | .error _ => h) nid = nodeLabel h nid
    cases hres : updateNode h m p with
    | error e => rfl
    | ok r =>
      obtain ⟨b, h2⟩ := r
      rcases updateNode_ok_inv h m p b h2 hres with ⟨_, hstate, _⟩ | ⟨_, hm, a, hpa, hstate⟩
      · subst hstate; rfl
      · show nodeLabel h2 nid = nodeLabel h nid
        subst hstate
        unfold nodeLabel nodeAttrs
        by_cases hmn : m = nid
        · subst hmn
          have hlab : alookup a "label" = none := hno a (by rw [hpa])
          show (flook (h.nodes.map _) m).bind _ = _
          rw [flook_map_update_self h.nodes m (fun y => aupdate y a)]
          cases hfl : flook h.nodes m with
          | none => rfl
          | some attrs =>
            show alookup (aupdate attrs a) "label" = alookup attrs "label"
            exact alookup_aupdate_of_none attrs a "label" hlab
        · show (flook (h.nodes.map _) nid).bind _ = _
          rw [flook_map_update_ne h.nodes m nid (fun y => aupdate y a)
            (fun hc => hmn hc.symm)]
  | opDeleteNode m =>
    show nodeLabel (match deleteNode h m with
      | .ok r => r.2 | .error _ => h) nid = nodeLabel h nid
    cases hres : deleteNode h m with
    | error e => rfl
    | ok r =>
      obtain ⟨b, h2⟩ := r
      have hpost2 : hasNode h2 nid = true := by
        have h3 := hpost
        simp only [applyOp] at h3
        rw [hres] at h3
        exact h3
      rcases deleteNode_ok_inv h m b h2 hres with ⟨_, hstate, _⟩ | ⟨_, _, _, hnodes, _, _, _⟩
      · subst hstate; rfl
      · show nodeLabel h2 nid = nodeLabel h nid
        unfold nodeLabel nodeAttrs
        rw [hnodes]
        by_cases hmn : nid = m
        · exfalso
          rw [hasNode_eq_isSome, hnodes] at hpost2
          rw [show flook (h.nodes.filter (fun q => !(q.1 == m))) nid = none from by
            rw [hmn]; exact flook_filter_keyne_self h.nodes m] at hpost2
          simp at hpost2
        · rw [flook_filter_keyne_ne h.nodes m nid hmn]
  | opCreateRel s e ty p relId =>
    show nodeLabel (match createRelationship h s e ty p relId with
      | .ok r => r.2 | .error _ => h) nid = nodeLabel h nid
    cases hres : createRelationship h s e ty p relId with
    | error e2 => rfl
    | ok r =>
      obtain ⟨rid, h2⟩ := r
      obtain ⟨_, _, _, hstate⟩ := createRelationship_ok_inv h s e ty p relId rid h2 hres
      subst hstate; rfl
  | opDeleteRel rid =>
    show nodeLabel (match deleteRelationship h rid with
      | .ok r => r.2 | .error _ => h) nid = nodeLabel h nid
    cases hres : deleteRelationship h rid with
    | error e => rfl
    | ok r =>
      obtain ⟨b, h2⟩ := r
      rcases deleteRelationship_ok_inv h rid b h2 hres with ⟨_, hstate, _⟩ | ⟨_, hstate⟩ <;>
        (subst hstate; rfl)
  | opClearAll =>
    show nodeLabel (match clearAll h with
      | .ok r => r.2 | .error _ => h) nid = nodeLabel h nid
    cases hres : clearAll h with
    | error e => rfl
    | ok r =>
      obtain ⟨u, h2⟩ := r
      have hstate := clearAll_ok_inv h u h2 hres
      exfalso
      have hpost2 : hasNode h2 nid = true := by
        have h3 := hpost
        simp only [applyOp] at h3
        rw [hres] at h3
        exact h3
      rw [hstate] at hpost2
      simp [hasNode] at hpost2

/-- C4 (witness for the amended theorem): deleting an unrelated node
preserves the label of node `a`. -/
theorem c4_amended_witness :
    nodeLabel (applyOp (reach [Op.opCreateNode "Rule" (.dict []) (some "a") "g",
        Op.opCreateNode "Other" (.dict []) (some "b") "g2"])
      (Op.opDeleteNode "b")) "a" =
    nodeLabel (reach [Op.opCreateNode "Rule" (.dict []) (some "a") "g",
        Op.opCreateNode "Other" (.dict []) (some "b") "g2"]) "a" :=
  c4_amended _ (Op.opDeleteNode "b") "a" rfl rfl (fun p hp => by cases hp)

/-! ## C5: `get_nodes_by_label` -/

theorem collect_inactive (h : Adapter) (label : String) (filters : Option Attrs)
    (lim : Option Int) (hlim : ∀ len, limitReached lim len = false) :
    ∀ (nodes : List (String × Attrs)) (acc : List Attrs),
      collectRows h label filters lim nodes acc =
        acc ++ (nodes.filter (fun p => matchesQuery p.2 label filters)).map
          (fun p => enrich h p.1 p.2)
  | [], acc => by simp [collectRows]
  | (nid, a) :: rest, acc => by
    rw [collectRows]
    by_cases hm : matchesQuery a label filters = true
    · rw [if_pos hm, hlim, if_neg (by simp : ¬((false : Bool) = true))]
      rw [collect_inactive h label filters lim hlim rest (acc ++ [enrich h nid a])]
      rw [List.filter_cons_of_pos (by simpa using hm)]
      simp
    · rw [if_neg hm]
      rw [collect_inactive h label filters lim hlim rest acc]
      rw [List.filter_cons_of_neg (by simpa using hm)]

theorem collect_bound (h : Adapter) (label : String) (filters : Option Attrs)
    (lim : Option Int) (B : Nat)
    (hlim : ∀ len, 0 < len → limitReached lim len = decide (B ≤ len)) :
    ∀ (nodes : List (String × Attrs)) (acc : List Attrs), acc.length < B →
      collectRows h label filters lim nodes acc =
        acc ++ ((nodes.filter (fun p => matchesQuery p.2 label filters)).map
          (fun p => enrich h p.1 p.2)).take (B - acc.length)
  | [], acc, hacc => by simp [collectRows]
  | (nid, a) :: rest, acc, hacc => by
    rw [collectRows]
    by_cases hm : matchesQuery a label filters = true
    · rw [if_pos hm, hlim _ (by simp), List.filter_cons_of_pos (by simpa using hm)]
      by_cases hble : B ≤ (acc ++ [enrich h nid a]).length
      · rw [if_pos (by simpa using hble)]
        have hlen : (acc ++ [enrich h nid a]).length = acc.length + 1 := by simp
        have hB1 : B - acc.length = 1 := by rw [hlen] at hble; omega
        rw [hB1]
        simp
      · rw [if_neg (by simpa using hble)]
        have hlen : (acc ++ [enrich h nid a]).length = acc.length + 1 := by simp
        have hlt : (acc ++ [enrich h nid a]).length < B := by rw [hlen]; rw [hlen] at hble; omega
        rw [collect_bound h label filters lim B hlim rest (acc ++ [enrich h nid a]) hlt]
        rw [hlen]
        rw [show B - acc.length = (B - (acc.length + 1)) + 1 from by omega,
          List.map_cons, List.take_succ_cons]
        simp
    · rw [if_neg hm, List.filter_cons_of_neg (by simpa using hm)]
      exact collect_bound h label filters lim B hlim rest acc hacc

/-- C5 (counterexample): `limit = 0` is falsy in Python, so the limit
test `if limit and len(results) >= limit:` never fires and all matches
are returned instead of an empty (0-truncated) list. -/
theorem c5_counterexample :
    Except.map List.length
      (getNodesByLabel (reach [Op.opCreateNode "Rule" (.dict []) (some "a") "g"])
        "Rule" none (some 0)) = .ok 1 ∧ (1 : Nat) ≠ 0 :=
  ⟨rfl, by decide⟩

/-- C5 (amended): on a connected handle, `get_nodes_by_label` returns
the rows whose label attribute equals the given label and whose
attributes match every filter entry by equality, truncated in storage
order by a positive limit before sorting (a limit of 0 is treated as no
limit and a negative limit yields at most the first match), and the
returned list is sorted by node identifier. -/
theorem c5_theorem (h : Adapter) (label : String) (filters : Option Attrs)
    (lim : Option Int) (hc : h.connected = true) :
    getNodesByLabel h label filters lim =
      .ok ((pyLimit lim (matchingRows h label filters)).insertionSort
        (fun a b => rowKey a ≤ rowKey b)) ∧
    (∀ rows, getNodesByLabel h label filters lim = .ok rows →
      List.Sorted (fun a b => rowKey a ≤ rowKey b) rows ∧
      rows.Perm (pyLimit lim (matchingRows h label filters)) ∧
      ((lim = none ∨ lim = some 0) → rows.Perm (matchingRows h label filters)) ∧
      (∀ r ∈ rows, r ∈ matchingRows h label filters)) := by
  have hmain : getNodesByLabel h label filters lim =
      .ok ((pyLimit lim (matchingRows h label filters)).insertionSort
        (fun a b => rowKey a ≤ rowKey b)) := by
    unfold getNodesByLabel
    rw [hc]
    simp only [Bool.not_true, if_neg (by simp : ¬((false : Bool) = true))]
    congr 1
    cases lim with
    | none =>
      rw [collect_inactive h label filters none (fun len => rfl) h.nodes []]
      rfl
    | some n =>
      by_cases hn0 : n = 0
      · subst hn0
        rw [collect_inactive h label filters (some 0)
          (fun len => by simp [limitReached]) h.nodes []]
        rfl
      · by_cases hneg : n < 0
        · have hlim : ∀ len, 0 < len →
              limitReached (some n) len = decide (1 ≤ len) := by
            intro len hlen
            have h1 : (n != 0) = true := by simpa using hn0
            have h2 : decide (n ≤ (len : Int)) = true := decide_eq_true (by omega)
            have h3 : decide (1 ≤ len) = true := decide_eq_true hlen
            simp only [limitReached, h1, h2, h3, Bool.and_self]
          rw [collect_bound h label filters (some n) 1 hlim h.nodes [] (by decide)]
          simp only [pyLimit, if_neg hn0, if_pos hneg]
          rfl
        · have hpos : 0 < n := by omega
          have hlim : ∀ len, 0 < len →
              limitReached (some n) len = decide (n.toNat ≤ len) := by
            intro len hlen
            have h1 : (n != 0) = true := by simpa using hn0
            simp only [limitReached, h1, Bool.true_and]
            by_cases hle : n ≤ (len : Int)
            · rw [decide_eq_true hle, Eq.symm (decide_eq_true (by omega : n.toNat ≤ len))]
            · rw [decide_eq_false hle, Eq.symm (decide_eq_false (by omega : ¬(n.toNat ≤ len)))]
          have hB : 0 < n.toNat := by omega
          rw [collect_bound h label filters (some n) n.toNat hlim h.nodes [] hB]
          simp only [pyLimit, if_neg hn0, if_neg (by omega : ¬(n < 0))]
          rfl
  refine ⟨hmain, ?_⟩
  intro rows hrows
  rw [hmain] at hrows
  have hrows2 : rows = (pyLimit lim (matchingRows h label filters)).insertionSort
      (fun a b => rowKey a ≤ rowKey b) := (Except.ok.injEq _ _).mp hrows.symm
  subst hrows2
  haveI hT : IsTotal Attrs (fun a b => rowKey a ≤ rowKey b) := ⟨fun a b => le_total _ _⟩
  haveI hTr : IsTrans Attrs (fun a b => rowKey a ≤ rowKey b) :=
    ⟨fun a b c hab hbc => le_trans hab hbc⟩
  have hperm := List.perm_insertionSort (fun a b => rowKey a ≤ rowKey b)
    (pyLimit lim (matchingRows h label filters))
  refine ⟨List.sorted_insertionSort _ _, hperm, ?_, ?_⟩
  · rintro (hl | hl) <;> (subst hl; exact hperm)
  · intro r hr
    have hr2 : r ∈ pyLimit lim (matchingRows h label filters) := hperm.mem_iff.mp hr
    cases lim with
    | none => exact hr2
    | some n =>
      simp only [pyLimit] at hr2
      by_cases hn0 : n = 0
      · rw [if_pos hn0] at hr2; exact hr2
      · rw [if_neg hn0] at hr2
        by_cases hneg : n < 0
        · rw [if_pos hneg] at hr2
          exact List.take_subset _ _ hr2
        · rw [if_neg hneg] at hr2
          exact List.take_subset _ _ hr2

/-- C5 (witness for the amended theorem). -/
theorem c5_theorem_witness :
    getNodesByLabel (reach [Op.opCreateNode "Rule" (.dict []) (some "b") "g",
        Op.opCreateNode "Rule" (.dict []) (some "a") "g2"]) "Rule" none (some 1) =
      .ok [[("node_id", J.jstr "b"), ("label", J.jstr "Rule"),
            ("degree", J.jnum 0), ("neighbors", J.jarr [])]] :=
  (c5_theorem (reach [Op.opCreateNode "Rule" (.dict []) (some "b") "g",
    Op.opCreateNode "Rule" (.dict []) (some "a") "g2"]) "Rule" none (some 1) rfl).1

/-! ## C7: cascading delete -/

/-- Every row returned by `get_relationships` comes from a stored edge
incident to the queried node, and its `start_node_id` / `end_node_id`
fields are the edge's stored values (with the node / neighbor as
defaults). -/
theorem getRelationships_mem (h2 : Adapter) (m : String) (ty : Option String)
    (dir : String) (rows : List Attrs)
    (hok : getRelationships h2 m ty dir = .ok rows) :
    ∀ r ∈ rows, ∃ e ∈ h2.edges, (e.u = m ∨ e.v = m) ∧
      alookup r "start_node_id" = (alookup e.attrs "start_node_id").getD (J.jstr m) ∧
      alookup r "end_node_id" =
        (alookup e.attrs "end_node_id").getD (J.jstr (if e.u == m then e.v else e.u)) ∧
      (∀ k, k ≠ "start_node_id" → k ≠ "end_node_id" → alookup r k = alookup e.attrs k) := by
  unfold getRelationships at hok
  split at hok
  · simp at hok
  · split at hok
    · have hrows : rows = [] := by
        have := (Except.ok.injEq _ _).mp hok
        exact this.symm
      subst hrows
      intro r hr
      simp at hr
    · split at hok
      · simp at hok
      · have hrows := (Except.ok.injEq _ _).mp hok
        subst hrows
        intro r hr
        obtain ⟨e, he, hfe⟩ := List.mem_filterMap.mp hr
        have he2 : e ∈ h2.edges := List.mem_of_mem_filter he
        have hinc : (e.u = m ∨ e.v = m) := by
          have := List.of_mem_filter he
          simpa using this
        refine ⟨e, he2, hinc, ?_⟩
        by_cases hum : (e.u == m) = true
        · rw [if_pos hum] at hfe
          have hr2 : aupdate e.attrs
              [("start_node_id", (alookup e.attrs "start_node_id").getD (J.jstr m)),
               ("end_node_id", (alookup e.attrs "end_node_id").getD (J.jstr e.v))] = r := by
            split at hfe
            all_goals try exact Option.noConfusion hfe
            all_goals split at hfe
            all_goals try exact Option.noConfusion hfe
            all_goals split at hfe
            all_goals try exact Option.noConfusion hfe
            all_goals exact Option.some.inj hfe
          rw [← hr2, if_pos hum]
          refine ⟨?_, ?_, ?_⟩
          · show alookup (ainsert (ainsert e.attrs "start_node_id" _)
              "end_node_id" _) "start_node_id" = _
            rw [alookup_ainsert_ne _ _ _ _ (by decide), alookup_ainsert_self]
          · show alookup (ainsert (ainsert e.attrs "start_node_id" _)
              "end_node_id" _) "end_node_id" = _
            rw [alookup_ainsert_self]
          · intro k hk1 hk2
            show alookup (ainsert (ainsert e.attrs "start_node_id" _)
              "end_node_id" _) k = _
            rw [alookup_ainsert_ne _ _ _ _ (Ne.symm hk2),
              alookup_ainsert_ne _ _ _ _ (Ne.symm hk1)]
        · rw [if_neg hum] at hfe
          have hr2 : aupdate e.attrs
              [("start_node_id", (alookup e.attrs "start_node_id").getD (J.jstr m)),
               ("end_node_id", (alookup e.attrs "end_node_id").getD (J.jstr e.u))] = r := by
            split at hfe
            all_goals try exact Option.noConfusion hfe
            all_goals split at hfe
            all_goals try exact Option.noConfusion hfe
            all_goals split at hfe
            all_goals try exact Option.noConfusion hfe
            all_goals exact Option.some.inj hfe
          rw [← hr2, if_neg hum]
          refine ⟨?_, ?_, ?_⟩
          · show alookup (ainsert (ainsert e.attrs "start_node_id" _)
              "end_node_id" _) "start_node_id" = _
            rw [alookup_ainsert_ne _ _ _ _ (by decide), alookup_ainsert_self]
          · show alookup (ainsert (ainsert e.attrs "start_node_id" _)
              "end_node_id" _) "end_node_id" = _
            rw [alookup_ainsert_self]
          · intro k hk1 hk2
            show alookup (ainsert (ainsert e.attrs "start_node_id" _)
              "end_node_id" _) k = _
            rw [alookup_ainsert_ne _ _ _ _ (Ne.symm hk2),
              alookup_ainsert_ne _ _ _ _ (Ne.symm hk1)]

/-- C7 (counterexample): `create_relationship` performs no property
validation, so properties `{"end_node_id": "x"}` override the
bookkeeping key of the stored edge.  `delete_node("x")` then succeeds
(returns `true`) — the edge is not incident to `x`, so nothing
cascades — yet `get_relationships` on the surviving endpoint `a`
returns a row whose `end_node_id` names the deleted node, refuting the
claim's unconditional cascade clause. -/
theorem c7_counterexample :
    Except.map Prod.fst (deleteNode (reach
      [Op.opCreateNode "Rule" (.dict []) (some "a") "g",
       Op.opCreateNode "Rule" (.dict []) (some "b") "g2",
       Op.opCreateNode "Rule" (.dict []) (some "x") "g3",
       Op.opCreateRel "a" "b" "T" (some [("end_node_id", J.jstr "x")]) "r1"]) "x") =
      .ok true ∧
    Except.map (fun rows => rows.map (fun r => alookup r "end_node_id"))
      (getRelationships (reach
        [Op.opCreateNode "Rule" (.dict []) (some "a") "g",
         Op.opCreateNode "Rule" (.dict []) (some "b") "g2",
         Op.opCreateNode "Rule" (.dict []) (some "x") "g3",
         Op.opCreateRel "a" "b" "T" (some [("end_node_id", J.jstr "x")]) "r1",
         Op.opDeleteNode "x"]) "a" none "both") = .ok [some (J.jstr "x")] :=
  ⟨rfl, rfl⟩

/-- C7 (amended): on a connected handle, `delete_node` returns `false`
(raising nothing) when the node is absent; a successful deleting call
removes every edge with the deleted node as an endpoint, and — provided
every stored edge record carries its true endpoints in its
`start_node_id` / `end_node_id` attributes, which holds whenever no
relationship properties overrode those bookkeeping keys — a subsequent
`get_relationships` on any node returns no row whose start or end field
names the deleted node. -/
theorem c7_theorem (h : Adapter) (n : String) (hc : h.connected = true) :
    (hasNode h n = false → deleteNode h n = .ok (false, h)) ∧
    (∀ b h2, deleteNode h n = .ok (b, h2) → hasNode h n = true →
      b = true ∧
      (∀ e ∈ h2.edges, e.u ≠ n ∧ e.v ≠ n) ∧
      (endpointsOk h → ∀ m ty dir rows, getRelationships h2 m ty dir = .ok rows →
        ∀ r ∈ rows, alookup r "start_node_id" ≠ some (J.jstr n) ∧
          alookup r "end_node_id" ≠ some (J.jstr n))) := by
  constructor
  · intro hn
    have hna : nodeAttrs h n = none := by
      rw [hasNode_eq_isSome] at hn
      exact Option.not_isSome_iff_eq_none.mp (by simp [nodeAttrs, hn])
    unfold deleteNode
    rw [hc]
    simp only [Bool.not_true, if_neg (by simp : ¬((false : Bool) = true))]
    rw [show nodeAttrs h n = none from hna]
  · intro b h2 heq hn
    rcases deleteNode_ok_inv h n b h2 heq with ⟨_, _, hna⟩ | hinv
    · rw [hasNode_eq_isSome] at hn
      rw [show nodeAttrs h n = flook h.nodes n from rfl] at hna
      rw [hna] at hn
      simp at hn
    · obtain ⟨hb, _, _, _, hedges, _, _⟩ := hinv
      have hnoinc : ∀ e ∈ h2.edges, e.u ≠ n ∧ e.v ≠ n := by
        intro e he
        rw [hedges] at he
        have := List.of_mem_filter he
        simp at this
        exact this
      refine ⟨hb, hnoinc, ?_⟩
      intro hend m ty dir rows hok r hr
      obtain ⟨e, he, hinc, hstart, hends, _⟩ := getRelationships_mem h2 m ty dir rows hok r hr
      have hne := hnoinc e he
      have hmem : e ∈ h.edges := by
        rw [hedges] at he
        exact List.mem_of_mem_filter he
      rcases hend e hmem with ⟨hs, he2⟩ | ⟨hs, he2⟩
      · constructor
        · rw [hstart, hs]
          simp only [Option.getD_some]
          intro hcon
          exact hne.1 (J.jstr.inj (Option.some.inj hcon))
        · rw [hends, he2]
          simp only [Option.getD_some]
          intro hcon
          exact hne.2 (J.jstr.inj (Option.some.inj hcon))
      · constructor
        · rw [hstart, hs]
          simp only [Option.getD_some]
          intro hcon
          exact hne.2 (J.jstr.inj (Option.some.inj hcon))
        · rw [hends, he2]
          simp only [Option.getD_some]
          intro hcon
          exact hne.1 (J.jstr.inj (Option.some.inj hcon))

/-- C7 (witness for the amended theorem; the last conjunct runs the
`get_relationships` clause — with its `endpointsOk` proviso discharged
concretely — on a state where a second relationship `a`–`c` survives
the deletion of `b`). -/
theorem c7_theorem_witness :
    deleteNode (reach [Op.opCreateNode "Rule" (.dict []) (some "a") "g",
      Op.opCreateNode "Rule" (.dict []) (some "b") "g2",
      Op.opCreateRel "a" "b" "LINK" none "r1"]) "zz" =
      .ok (false, reach [Op.opCreateNode "Rule" (.dict []) (some "a") "g",
        Op.opCreateNode "Rule" (.dict []) (some "b") "g2",
        Op.opCreateRel "a" "b" "LINK" none "r1"]) ∧
    (∀ e ∈ (applyOp (reach [Op.opCreateNode "Rule" (.dict []) (some "a") "g",
        Op.opCreateNode "Rule" (.dict []) (some "b") "g2",
        Op.opCreateRel "a" "b" "LINK" none "r1"]) (Op.opDeleteNode "b")).edges,
      e.u ≠ "b" ∧ e.v ≠ "b") ∧
    (∀ rows, getRelationships (applyOp (reach
        [Op.opCreateNode "Rule" (.dict []) (some "a") "g",
         Op.opCreateNode "Rule" (.dict []) (some "b") "g2",
         Op.opCreateNode "Rule" (.dict []) (some "c") "g3",
         Op.opCreateRel "a" "b" "LINK" none "r1",
         Op.opCreateRel "a" "c" "LINK" none "r2"]) (Op.opDeleteNode "b"))
        "a" none "both" = .ok rows →
      ∀ r ∈ rows, alookup r "start_node_id" ≠ some (J.jstr "b") ∧
        alookup r "end_node_id" ≠ some (J.jstr "b")) :=
  ⟨(c7_theorem (reach [Op.opCreateNode "Rule" (.dict []) (some "a") "g",
      Op.opCreateNode "Rule" (.dict []) (some "b") "g2",
      Op.opCreateRel "a" "b" "LINK" none "r1"]) "zz" (by decide)).1 (by decide),
   ((c7_theorem (reach [Op.opCreateNode "Rule" (.dict []) (some "a") "g",
      Op.opCreateNode "Rule" (.dict []) (some "b") "g2",
      Op.opCreateRel "a" "b" "LINK" none "r1"]) "b" (by decide)).2 true
     (applyOp (reach [Op.opCreateNode "Rule" (.dict []) (some "a") "g",
        Op.opCreateNode "Rule" (.dict []) (some "b") "g2",
        Op.opCreateRel "a" "b" "LINK" none "r1"]) (Op.opDeleteNode "b")) (by rfl)
     (by decide)).2.1,
   fun rows hok => ((c7_theorem (reach
        [Op.opCreateNode "Rule" (.dict []) (some "a") "g",
         Op.opCreateNode "Rule" (.dict []) (some "b") "g2",
         Op.opCreateNode "Rule" (.dict []) (some "c") "g3",
         Op.opCreateRel "a" "b" "LINK" none "r1",
         Op.opCreateRel "a" "c" "LINK" none "r2"]) "b" (by decide)).2 true
     (applyOp (reach
        [Op.opCreateNode "Rule" (.dict []) (some "a") "g",
         Op.opCreateNode "Rule" (.dict []) (some "b") "g2",
         Op.opCreateNode "Rule" (.dict []) (some "c") "g3",
         Op.opCreateRel "a" "b" "LINK" none "r1",
         Op.opCreateRel "a" "c" "LINK" none "r2"]) (Op.opDeleteNode "b")) (by rfl)
     (by decide)).2.2 (by unfold endpointsOk; decide) "a" none "both" rows hok⟩

/-! ## C10: one relationship per unordered node pair -/

theorem sameEdge_trans (e e2 : Edge) (a b : String)
    (h1 : sameEdge e a b = true) (h2 : sameEdge e2 a b = true) :
    sameEdge e e2.u e2.v = true := by
  simp only [sameEdge, Bool.or_eq_true, Bool.and_eq_true, beq_iff_eq] at h1 h2 ⊢
  rcases h1 with ⟨hu, hv⟩ | ⟨hu, hv⟩ <;> rcases h2 with ⟨hu2, hv2⟩ | ⟨hu2, hv2⟩ <;>
    simp [hu, hv, hu2, hv2]

theorem mem_addEdgeNX_pair : ∀ (es : List Edge) (a b : String) (at2 : Attrs),
    ∀ e2 ∈ addEdgeNX es a b at2,
      (∃ e0 ∈ es, e2.u = e0.u ∧ e2.v = e0.v) ∨ (e2.u = a ∧ e2.v = b)
  | [], a, b, at2, e2, he2 => by
    simp only [addEdgeNX, List.mem_singleton] at he2
    right
    rw [he2]
    exact ⟨rfl, rfl⟩
  | e :: es, a, b, at2, e2, he2 => by
    rw [addEdgeNX] at he2
    by_cases hse : sameEdge e a b = true
    · rw [if_pos hse] at he2
      rcases List.mem_cons.mp he2 with he3 | he3
      · exact Or.inl ⟨e, List.mem_cons_self e es, by rw [he3], by rw [he3]⟩
      · exact Or.inl ⟨e2, List.mem_cons_of_mem e he3, rfl, rfl⟩
    · rw [if_neg hse] at he2
      rcases List.mem_cons.mp he2 with he3 | he3
      · exact Or.inl ⟨e, List.mem_cons_self e es, by rw [he3], by rw [he3]⟩
      · rcases mem_addEdgeNX_pair es a b at2 e2 he3 with ⟨e0, h0, hpu, hpv⟩ | hpr
        · exact Or.inl ⟨e0, List.mem_cons_of_mem e h0, hpu, hpv⟩
        · exact Or.inr hpr

theorem addEdgeNX_pairwise : ∀ (es : List Edge) (a b : String) (at2 : Attrs),
    es.Pairwise (fun x y => sameEdge x y.u y.v = false) →
    (addEdgeNX es a b at2).Pairwise (fun x y => sameEdge x y.u y.v = false)
  | [], a, b, at2, _ => by simp [addEdgeNX]
  | e :: es, a, b, at2, hp => by
    rw [addEdgeNX]
    rw [List.pairwise_cons] at hp
    by_cases hse : sameEdge e a b = true
    · rw [if_pos hse, List.pairwise_cons]
      exact ⟨fun y hy => hp.1 y hy, hp.2⟩
    · rw [if_neg hse, List.pairwise_cons]
      constructor
      · intro y hy
        rcases mem_addEdgeNX_pair es a b at2 y hy with ⟨e0, h0, hu, hv⟩ | ⟨hu, hv⟩
        · rw [hu, hv]
          exact hp.1 e0 h0
        · rw [hu, hv]
          exact Bool.not_eq_true _ ▸ hse
      · exact addEdgeNX_pairwise es a b at2 hp.2

theorem removeFirstEdge_sublist (p : Edge → Bool) : ∀ l : List Edge,
    (removeFirstEdge p l).Sublist l
  | [] => List.Sublist.refl []
  | e :: rest => by
    rw [removeFirstEdge]
    by_cases hp : p e = true
    · rw [if_pos hp]
      exact List.sublist_cons_self e rest
    · rw [if_neg hp]
      exact (removeFirstEdge_sublist p rest).cons₂ e

theorem uniquePairs_applyOp (h : Adapter) (op : Op) (hu : uniquePairs h) :
    uniquePairs (applyOp h op) := by
  cases op with
  | opCreateNode l p n g =>
    show uniquePairs (match createNode h l p n g with | .ok r => r.2 | .error _ => h)
    cases hres : createNode h l p n g with
    | error e => exact hu
    | ok r =>
      obtain ⟨rid, h2⟩ := r
      obtain ⟨a, _, _, _, _, hstate⟩ := createNode_ok_inv h l p n g rid h2 hres
      subst hstate
      exact hu
  | opUpdateNode m p =>
    show uniquePairs (match updateNode h m p with | .ok r => r.2 | .error _ => h)
    cases hres : updateNode h m p with
    | error e => exact hu
    | ok r =>
      obtain ⟨b, h2⟩ := r
      rcases updateNode_ok_inv h m p b h2 hres with ⟨_, hstate, _⟩ | ⟨_, _, a, _, hstate⟩ <;>
        (subst hstate; exact hu)
  | opDeleteNode m =>
    show uniquePairs (match deleteNode h m with | .ok r => r.2 | .error _ => h)
    cases hres : deleteNode h m with
    | error e => exact hu
    | ok r =>
      obtain ⟨b, h2⟩ := r
      rcases deleteNode_ok_inv h m b h2 hres with ⟨_, hstate, _⟩ | ⟨_, _, _, _, hedges, _, _⟩
      · subst hstate; exact hu
      · show h2.edges.Pairwise _
        rw [hedges]
        exact hu.sublist (List.filter_sublist h.edges)
  | opCreateRel s e ty p relId =>
    show uniquePairs (match createRelationship h s e ty p relId with
      | .ok r2 => r2.2 | .error _ => h)
    cases hres : createRelationship h s e ty p relId with
    | error e2 => exact hu
    | ok r =>
      obtain ⟨rid, h2⟩ := r
      obtain ⟨_, _, _, hstate⟩ := createRelationship_ok_inv h s e ty p relId rid h2 hres
      subst hstate
      exact addEdgeNX_pairwise h.edges s e _ hu
  | opDeleteRel rid =>
    show uniquePairs (match deleteRelationship h rid with | .ok r2 => r2.2 | .error _ => h)
    cases hres : deleteRelationship h rid with
    | error e => exact hu
    | ok r =>
      obtain ⟨b, h2⟩ := r
      rcases deleteRelationship_ok_inv h rid b h2 hres with ⟨_, hstate, _⟩ | ⟨_, hstate⟩
      · subst hstate; exact hu
      · subst hstate
        exact hu.sublist (removeFirstEdge_sublist _ h.edges)
  | opClearAll =>
    show uniquePairs (match clearAll h with | .ok r => r.2 | .error _ => h)
    cases hres : clearAll h with
    | error e => exact hu
    | ok r =>
      obtain ⟨u, h2⟩ := r
      rw [clearAll_ok_inv h u h2 hres]
      exact List.Pairwise.nil

theorem uniquePairs_foldl (ops : List Op) : ∀ h : Adapter, uniquePairs h →
    uniquePairs (ops.foldl applyOp h) := by
  induction ops with
  | nil => exact fun h hu => hu
  | cons op rest ih =>
    intro h hu
    exact ih (applyOp h op) (uniquePairs_applyOp h op hu)

theorem addEdgeNX_lookup (k : String) (v : J) : ∀ (es : List Edge) (a b : String) (at2 : Attrs),
    alookup at2 k = some v → keysNodup at2 →
    es.Pairwise (fun x y => sameEdge x y.u y.v = false) →
    ∀ e2 ∈ addEdgeNX es a b at2,
      (e2 ∈ es ∧ sameEdge e2 a b = false) ∨
      (alookup e2.attrs k = some v ∧ sameEdge e2 a b = true)
  | [], a, b, at2, hk, hnd, hp, e2, he2 => by
    simp only [addEdgeNX, List.mem_singleton] at he2
    right
    rw [he2]
    refine ⟨hk, ?_⟩
    simp [sameEdge]
  | e :: es, a, b, at2, hk, hnd, hp, e2, he2 => by
    rw [addEdgeNX] at he2
    rw [List.pairwise_cons] at hp
    by_cases hse : sameEdge e a b = true
    · rw [if_pos hse] at he2
      rcases List.mem_cons.mp he2 with he3 | he3
      · right
        refine ⟨?_, ?_⟩
        · rw [he3]
          exact alookup_aupdate_of_some e.attrs at2 k v hnd hk
        · rw [he3]
          exact hse
      · left
        refine ⟨List.mem_cons_of_mem e he3, ?_⟩
        by_contra hcon
        rw [Bool.not_eq_false] at hcon
        have htr := sameEdge_trans e e2 a b hse hcon
        have h2 := hp.1 e2 he3
        rw [htr] at h2
        exact absurd h2 (by simp)
    · rw [if_neg hse] at he2
      rcases List.mem_cons.mp he2 with he3 | he3
      · left
        rw [he3]
        exact ⟨List.mem_cons_self e es, Bool.not_eq_true _ ▸ hse⟩
      · rcases addEdgeNX_lookup k v es a b at2 hk hnd hp.2 e2 he3 with ⟨hm, hf⟩ | hr
        · exact Or.inl ⟨List.mem_cons_of_mem e hm, hf⟩
        · exact Or.inr hr

theorem keys_ainsert_mem (a : Attrs) (k : String) (v : J) (x : String)
    (hx : x ∈ (ainsert a k v).map (·.1)) : x ∈ a.map (·.1) ∨ x = k := by
  induction a with
  | nil => simpa [ainsert] using hx
  | cons q rest ih =>
    rw [ainsert] at hx
    by_cases hq : q.1 = k
    · rw [if_pos (by simpa using hq)] at hx
      simp only [List.map_cons, List.mem_cons] at hx ⊢
      rcases hx with hx | hx
      · right; rw [hx]
      · left; right; exact hx
    · rw [if_neg (by simpa using hq)] at hx
      simp only [List.map_cons, List.mem_cons] at hx ⊢
      rcases hx with hx | hx
      · left; left; exact hx
      · rcases ih hx with hm | hk
        · left; right; exact hm
        · right; exact hk

theorem keysNodup_ainsert (a : Attrs) (k : String) (v : J) (hnd : keysNodup a) :
    keysNodup (ainsert a k v) := by
  induction a with
  | nil => simp [ainsert, keysNodup]
  | cons q rest ih =>
    rw [keysNodup, ainsert]
    simp only [keysNodup, List.map_cons, List.nodup_cons] at hnd
    by_cases hq : q.1 = k
    · rw [if_pos (by simpa using hq)]
      simp only [List.map_cons, List.nodup_cons]
      exact ⟨hq ▸ hnd.1, hnd.2⟩
    · rw [if_neg (by simpa using hq)]
      simp only [List.map_cons, List.nodup_cons]
      constructor
      · intro hmem
        rcases keys_ainsert_mem rest k v q.1 hmem with hm | hk
        · exact hnd.1 hm
        · exact hq hk
      · exact ih hnd.2

theorem keysNodup_aupdate (a : Attrs) (p : Attrs) (hnd : keysNodup a) :
    keysNodup (aupdate a p) := by
  induction p generalizing a with
  | nil => exact hnd
  | cons q rest ih =>
    show keysNodup (aupdate (ainsert a q.1 q.2) rest)
    exact ih _ (keysNodup_ainsert a q.1 q.2 hnd)

theorem sameEdge_symm_args (x : Edge) (a b : String) : sameEdge x b a = sameEdge x a b := by
  unfold sameEdge
  rw [Bool.or_comm]

/-- A helper computing the successful result of `create_relationship`. -/
theorem createRel_ok (h2 : Adapter) (s e ty : String) (p : Option Attrs) (rid : String)
    (hc2 : h2.connected = true) (hs : hasNode h2 s = true) (he : hasNode h2 e = true)
    (hty : stripIsEmpty ty = false) :
    createRelationship h2 s e ty p rid = .ok (rid, { h2 with
      edges := addEdgeNX h2.edges s e (aupdate
        [("rel_id", J.jstr rid), ("type", J.jstr ty),
         ("start_node_id", J.jstr s), ("end_node_id", J.jstr e)] (p.getD [])),
      relCounter := h2.relCounter + 1 }) := by
  unfold createRelationship
  rw [hc2, hs, he]
  simp [hty]

/-- C10 (counterexample): relationship properties can override the
`rel_id` bookkeeping key (`{**properties}` is merged last): a second
`create_relationship` between the same nodes with properties
`{"rel_id": "r1"}` returns the new id `"r2"`, yet the stored edge still
carries `rel_id = "r1"`, so `delete_relationship("r1")` returns `true`
— not `false` as the claim requires. -/
theorem c10_counterexample :
    Except.map Prod.fst (createRelationship
      (reach [Op.opCreateNode "Rule" (.dict []) (some "a") "g",
        Op.opCreateNode "Rule" (.dict []) (some "b") "g2",
        Op.opCreateRel "a" "b" "T" none "r1"])
      "a" "b" "T" (some [("rel_id", J.jstr "r1")]) "r2") = .ok "r2" ∧
    Except.map Prod.fst (deleteRelationship
      (reach [Op.opCreateNode "Rule" (.dict []) (some "a") "g",
        Op.opCreateNode "Rule" (.dict []) (some "b") "g2",
        Op.opCreateRel "a" "b" "T" none "r1",
        Op.opCreateRel "a" "b" "T" (some [("rel_id", J.jstr "r1")]) "r2"])
      "r1") = .ok true := ⟨rfl, rfl⟩

/-- C10 (amended): at most one stored relationship exists between any
unordered pair of nodes, in every reachable state.  A second successful
`create_relationship` between the same two nodes (in either argument
order) returns the new relationship id and overwrites the stored edge's
bookkeeping attributes, provided the second call's properties do not
override `rel_id`; afterwards the first id (fresh before the first call
and distinct from the second) appears in no stored edge and in no
`get_relationships` row, and `delete_relationship` on it returns
`false`. -/
theorem c10_amended (h : Adapter) (A B s2 e2 ty1 ty2 : String)
    (p1 p2 : Option Attrs) (r1 r2 : String)
    (hc : h.connected = true) (hA : hasNode h A = true) (hB : hasNode h B = true)
    (hty1 : stripIsEmpty ty1 = false) (hty2 : stripIsEmpty ty2 = false)
    (hpair : (s2 = A ∧ e2 = B) ∨ (s2 = B ∧ e2 = A))
    (huniq : uniquePairs h)
    (hfresh : relIdAbsent h r1) (hne : r1 ≠ r2)
    (hp1nd : keysNodup (p1.getD []))
    (hp2 : alookup (p2.getD []) "rel_id" = none) :
    (∀ ops, uniquePairs (reach ops)) ∧
    createRelationship h A B ty1 p1 r1 =
      .ok (r1, applyOp h (Op.opCreateRel A B ty1 p1 r1)) ∧
    createRelationship (applyOp h (Op.opCreateRel A B ty1 p1 r1)) s2 e2 ty2 p2 r2 =
      .ok (r2, applyOp (applyOp h (Op.opCreateRel A B ty1 p1 r1))
        (Op.opCreateRel s2 e2 ty2 p2 r2)) ∧
    relIdAbsent (applyOp (applyOp h (Op.opCreateRel A B ty1 p1 r1))
      (Op.opCreateRel s2 e2 ty2 p2 r2)) r1 ∧
    deleteRelationship (applyOp (applyOp h (Op.opCreateRel A B ty1 p1 r1))
      (Op.opCreateRel s2 e2 ty2 p2 r2)) r1 =
      .ok (false, applyOp (applyOp h (Op.opCreateRel A B ty1 p1 r1))
        (Op.opCreateRel s2 e2 ty2 p2 r2)) ∧
    (∀ m ty dir rows, getRelationships (applyOp (applyOp h (Op.opCreateRel A B ty1 p1 r1))
        (Op.opCreateRel s2 e2 ty2 p2 r2)) m ty dir = .ok rows →
      ∀ row ∈ rows, alookup row "rel_id" ≠ some (J.jstr r1)) := by
  have hcall1 := createRel_ok h A B ty1 p1 r1 hc hA hB hty1
  have hmid_eq : applyOp h (Op.opCreateRel A B ty1 p1 r1) = { h with
      edges := addEdgeNX h.edges A B (aupdate
        [("rel_id", J.jstr r1), ("type", J.jstr ty1),
         ("start_node_id", J.jstr A), ("end_node_id", J.jstr B)] (p1.getD [])),
      relCounter := h.relCounter + 1 } := by
    show (match createRelationship h A B ty1 p1 r1 with
      | .ok r2 => r2.2 | .error _ => h) = _
    rw [hcall1]
  have hmidc : (applyOp h (Op.opCreateRel A B ty1 p1 r1)).connected = true := by
    rw [hmid_eq]; exact hc
  have hmids : hasNode (applyOp h (Op.opCreateRel A B ty1 p1 r1)) s2 = true := by
    rw [hmid_eq]
    rcases hpair with ⟨hs, _⟩ | ⟨hs, _⟩ <;> (subst hs; first | exact hA | exact hB)
  have hmide : hasNode (applyOp h (Op.opCreateRel A B ty1 p1 r1)) e2 = true := by
    rw [hmid_eq]
    rcases hpair with ⟨_, he⟩ | ⟨_, he⟩ <;> (subst he; first | exact hA | exact hB)
  have hcall2 := createRel_ok (applyOp h (Op.opCreateRel A B ty1 p1 r1)) s2 e2 ty2 p2 r2
    hmidc hmids hmide hty2
  have hfin_eq : applyOp (applyOp h (Op.opCreateRel A B ty1 p1 r1))
      (Op.opCreateRel s2 e2 ty2 p2 r2) =
      { (applyOp h (Op.opCreateRel A B ty1 p1 r1)) with
        edges := addEdgeNX (applyOp h (Op.opCreateRel A B ty1 p1 r1)).edges s2 e2 (aupdate
          [("rel_id", J.jstr r2), ("type", J.jstr ty2),
           ("start_node_id", J.jstr s2), ("end_node_id", J.jstr e2)] (p2.getD [])),
        relCounter := (applyOp h (Op.opCreateRel A B ty1 p1 r1)).relCounter + 1 } := by
    show (match createRelationship (applyOp h (Op.opCreateRel A B ty1 p1 r1))
      s2 e2 ty2 p2 r2 with | .ok r2 => r2.2 | .error _ => _) = _
    rw [hcall2]
  have huniqMid : uniquePairs (applyOp h (Op.opCreateRel A B ty1 p1 r1)) :=
    uniquePairs_applyOp h _ huniq
  have hattrs2 : alookup (aupdate
      [("rel_id", J.jstr r2), ("type", J.jstr ty2),
       ("start_node_id", J.jstr s2), ("end_node_id", J.jstr e2)] (p2.getD []))
      "rel_id" = some (J.jstr r2) := by
    rw [alookup_aupdate_of_none _ _ _ hp2]
    rfl
  have hnd2 : keysNodup (aupdate
      [("rel_id", J.jstr r2), ("type", J.jstr ty2),
       ("start_node_id", J.jstr s2), ("end_node_id", J.jstr e2)] (p2.getD [])) :=
    keysNodup_aupdate _ _ (by simp [keysNodup])
  have habsent : relIdAbsent (applyOp (applyOp h (Op.opCreateRel A B ty1 p1 r1))
      (Op.opCreateRel s2 e2 ty2 p2 r2)) r1 := by
    intro ed hed
    rw [hfin_eq] at hed
    have hed2 : ed ∈ addEdgeNX (applyOp h (Op.opCreateRel A B ty1 p1 r1)).edges s2 e2 _ := hed
    rcases addEdgeNX_lookup "rel_id" (J.jstr r2) _ s2 e2 _ hattrs2 hnd2 huniqMid ed hed2 with
      ⟨hm, hf⟩ | ⟨hv, _⟩
    · rw [hmid_eq] at hm
      have hm2 : ed ∈ addEdgeNX h.edges A B (aupdate
          [("rel_id", J.jstr r1), ("type", J.jstr ty1),
           ("start_node_id", J.jstr A), ("end_node_id", J.jstr B)] (p1.getD [])) := hm
      have hv1 : ∃ v1, alookup (aupdate
          [("rel_id", J.jstr r1), ("type", J.jstr ty1),
           ("start_node_id", J.jstr A), ("end_node_id", J.jstr B)] (p1.getD []))
          "rel_id" = some v1 := by
        cases hcase : alookup (p1.getD []) "rel_id" with
        | none =>
          refine ⟨J.jstr r1, ?_⟩
          rw [alookup_aupdate_of_none _ _ _ hcase]
          rfl
        | some w => exact ⟨w, alookup_aupdate_of_some _ _ _ w hp1nd hcase⟩
      obtain ⟨v1, hv1⟩ := hv1
      rcases addEdgeNX_lookup "rel_id" v1 h.edges A B _ hv1
          (keysNodup_aupdate _ _ (by simp [keysNodup])) huniq ed hm2 with
        ⟨hm3, _⟩ | ⟨_, hsame⟩
      · exact hfresh ed hm3
      · exfalso
        have hsame2 : sameEdge ed s2 e2 = true := by
          rcases hpair with ⟨hs, he⟩ | ⟨hs, he⟩
          · rw [hs, he]; exact hsame
          · rw [hs, he, sameEdge_symm_args]; exact hsame
        rw [hsame2] at hf
        exact absurd hf (by simp)
    · rw [hv]
      intro hcon
      exact hne (J.jstr.inj (Option.some.inj hcon)).symm
  have hcall1A : createRelationship h A B ty1 p1 r1 =
      .ok (r1, applyOp h (Op.opCreateRel A B ty1 p1 r1)) := by
    rw [hmid_eq]; exact hcall1
  have hcall2A : createRelationship (applyOp h (Op.opCreateRel A B ty1 p1 r1))
      s2 e2 ty2 p2 r2 =
      .ok (r2, applyOp (applyOp h (Op.opCreateRel A B ty1 p1 r1))
        (Op.opCreateRel s2 e2 ty2 p2 r2)) := by
    rw [hfin_eq]; exact hcall2
  refine ⟨fun ops => uniquePairs_foldl ops emptyAdapter List.Pairwise.nil, hcall1A, hcall2A,
    habsent, ?_, ?_⟩
  · have hfinc : (applyOp (applyOp h (Op.opCreateRel A B ty1 p1 r1))
        (Op.opCreateRel s2 e2 ty2 p2 r2)).connected = true := by
      rw [hfin_eq, hmid_eq]; exact hc
    unfold deleteRelationship
    rw [hfinc]
    have hany : ((applyOp (applyOp h (Op.opCreateRel A B ty1 p1 r1))
        (Op.opCreateRel s2 e2 ty2 p2 r2)).edges.any
        (fun e => alookup e.attrs "rel_id" == some (J.jstr r1))) = false := by
      rw [List.any_eq_false]
      intro ed hed
      simp only [beq_iff_eq]
      exact habsent ed hed
    rw [hany]
    rfl
  · intro m ty dir rows hok row hrow
    obtain ⟨ed, hed, _, _, _, hkeys⟩ :=
      getRelationships_mem _ m ty dir rows hok row hrow
    rw [hkeys "rel_id" (by decide) (by decide)]
    exact habsent ed hed

/-- C10 (witness for the amended theorem). -/
theorem c10_amended_witness :
    deleteRelationship (applyOp (applyOp
      (reach [Op.opCreateNode "Rule" (.dict []) (some "a") "g",
        Op.opCreateNode "Rule" (.dict []) (some "b") "g2"])
      (Op.opCreateRel "a" "b" "T" none "r1")) (Op.opCreateRel "b" "a" "T" none "r2")) "r1" =
      .ok (false, applyOp (applyOp
        (reach [Op.opCreateNode "Rule" (.dict []) (some "a") "g",
          Op.opCreateNode "Rule" (.dict []) (some "b") "g2"])
        (Op.opCreateRel "a" "b" "T" none "r1")) (Op.opCreateRel "b" "a" "T" none "r2")) :=
  (c10_amended (reach [Op.opCreateNode "Rule" (.dict []) (some "a") "g",
      Op.opCreateNode "Rule" (.dict []) (some "b") "g2"])
    "a" "b" "b" "a" "T" "T" none none "r1" "r2"
    (by decide) (by decide) (by decide) (by decide) (by decide)
    (Or.inr ⟨rfl, rfl⟩) List.Pairwise.nil
    (fun e he => absurd he (List.not_mem_nil e)) (by decide)
    (by simp [keysNodup]) rfl).2.2.2.2.1

/-- C8 (witness). -/
theorem c8_witness :
    bakRangeOk (runSaves ⟨some "d0", none, []⟩ 2
      [("c1", false), ("c2", false), ("c3", false), ("c4", false)]) 2 ∧
    (runSaves ⟨some "d0", none, []⟩ 2
      [("c1", false), ("c2", false), ("c3", false), ("c4", false)]).baks.length ≤ 2 ∧
    (saveGraph ⟨some "d0", none, []⟩ 2 "c1" false).1.bakGet 1 = some "d0" := by
  obtain ⟨h1, h2, _, h4⟩ := c8_theorem ⟨some "d0", none, []⟩ 2
    [("c1", false), ("c2", false), ("c3", false), ("c4", false)] "c1" false
    (by intro p hp; simp at hp) (by simp [bakIdxNodup])
  exact ⟨h1, h2, h4 "d0" rfl (by decide)⟩

/-! ## C3: save/load round trip -/

theorem except_obind_ok {α β ε : Type} (x : α) (f : α → Except ε β) :
    (Except.ok x).bind f = f x := rfl

theorem except_mbind_ok {α β ε : Type} (x : α) (f : α → Except ε β) :
    (Except.ok x >>= f) = f x := rfl

theorem except_pure_bind {α β ε : Type} (x : α) (f : α → Except ε β) :
    ((pure x : Except ε α) >>= f) = f x := rfl

theorem filter_key_absent (l : List (String × J)) (k : String)
    (h : flook l k = none) : l.filter (fun p => !(p.1 == k)) = l := by
  rw [flook_eq_none_iff] at h
  induction l with
  | nil => rfl
  | cons q rest ih =>
    rw [List.filter_cons, if_pos (by simpa using h q (List.mem_cons_self q rest))]
    rw [ih (fun p hp => h p (List.mem_cons_of_mem q hp))]

theorem filter_two_keys_absent (l : List (String × J)) (k1 k2 : String)
    (h1 : flook l k1 = none) (h2 : flook l k2 = none) :
    l.filter (fun p => !(p.1 == k1 || p.1 == k2)) = l := by
  rw [flook_eq_none_iff] at h1 h2
  induction l with
  | nil => rfl
  | cons q rest ih =>
    rw [List.filter_cons, if_pos (by
      have hq1 := h1 q (List.mem_cons_self q rest)
      have hq2 := h2 q (List.mem_cons_self q rest)
      simp [hq1, hq2])]
    rw [ih (fun p hp => h1 p (List.mem_cons_of_mem q hp))
        (fun p hp => h2 p (List.mem_cons_of_mem q hp))]

theorem validate_ok_inv (a : Attrs)
    (h : validateNodeProperties (.dict a) = .ok ()) :
    alookup a "id" = none ∧ alookup a "_id" = none ∧ alookup a "node_id" = none := by
  have h2 : (if (alookup a "id").isSome || (alookup a "_id").isSome ||
      (alookup a "node_id").isSome then (Except.error GError.validationError : Except GError Unit)
    else .ok ()) = .ok () := h
  split at h2
  next hcond =>
    exact absurd h2 (by simp)
  next hcond =>
    have hc : ((alookup a "id").isSome || (alookup a "_id").isSome ||
        (alookup a "node_id").isSome) = false := by
      simpa using hcond
    refine ⟨?_, ?_, ?_⟩
    · cases hx : alookup a "id" with
      | none => rfl
      | some v => rw [hx] at hc; simp at hc
    · cases hx : alookup a "_id" with
      | none => rfl
      | some v => rw [hx] at hc; simp at hc
    · cases hx : alookup a "node_id" with
      | none => rfl
      | some v => rw [hx] at hc; simp at hc

theorem alookup_aupdate_none (a p : Attrs) (k : String)
    (ha : alookup a k = none) (hp : alookup p k = none) :
    alookup (aupdate a p) k = none := by
  rw [alookup_aupdate_of_none a p k hp]; exact ha

theorem any_key_false_not_mem (l : List (String × Attrs)) (n : String)
    (h : l.any (fun p => p.1 == n) = false) : ¬ n ∈ l.map (·.1) := by
  intro hmem
  rcases List.mem_map.mp hmem with ⟨p, hp, hpn⟩
  rw [List.any_eq_false] at h
  exact h p hp (by simp [hpn])

theorem hasNode_any_append (nodes l2 : List (String × Attrs)) (x : String)
    (h : nodes.any (fun p => p.1 == x) = true) :
    (nodes ++ l2).any (fun p => p.1 == x) = true := by
  rw [List.any_append, h]
  rfl

theorem setAdd_nodup (s : List String) (x : String) (h : s.Nodup) :
    (setAdd s x).Nodup := by
  unfold setAdd
  by_cases hc : s.contains x
  · rw [if_pos hc]; exact h
  · rw [if_neg hc]
    rw [List.nodup_append]
    refine ⟨h, List.nodup_singleton x, ?_⟩
    intro y hy hyx
    rw [List.mem_singleton] at hyx
    exact hc (by rw [hyx] at hy; simpa using hy)

theorem idxAdd_nodup (idx : List (String × List String)) (l nid : String)
    (hq : ∀ q ∈ idx, q.2.Nodup) : ∀ p ∈ idxAdd idx l nid, p.2.Nodup := by
  intro p hp
  unfold idxAdd at hp
  by_cases hs : (idxLookup idx l).isSome
  · rw [if_pos hs] at hp
    rcases List.mem_map.mp hp with ⟨q, hqm, hqe⟩
    by_cases hql : (q.1 == l) = true
    · rw [if_pos hql] at hqe
      rw [← hqe]
      exact setAdd_nodup q.2 nid (hq q hqm)
    · rw [if_neg hql] at hqe
      rw [← hqe]
      exact hq q hqm
  · rw [if_neg hs] at hp
    rcases List.mem_append.mp hp with hp2 | hp2
    · exact hq p hp2
    · rw [List.mem_singleton] at hp2
      rw [hp2]
      exact List.nodup_singleton nid

theorem mem_addEdgeNX_attrs : ∀ (es : List Edge) (a b : String) (at2 : Attrs),
    ∀ e2 ∈ addEdgeNX es a b at2,
      e2 ∈ es ∨ e2.attrs = at2 ∨ ∃ e0 ∈ es, e2.attrs = aupdate e0.attrs at2
  | [], a, b, at2, e2, he2 => by
    simp only [addEdgeNX, List.mem_singleton] at he2
    exact Or.inr (Or.inl (by rw [he2]))
  | e :: es, a, b, at2, e2, he2 => by
    rw [addEdgeNX] at he2
    by_cases hse : sameEdge e a b = true
    · rw [if_pos hse] at he2
      rcases List.mem_cons.mp he2 with he3 | he3
      · exact Or.inr (Or.inr ⟨e, List.mem_cons_self e es, by rw [he3]⟩)
      · exact Or.inl (List.mem_cons_of_mem e he3)
    · rw [if_neg hse] at he2
      rcases List.mem_cons.mp he2 with he3 | he3
      · exact Or.inl (he3 ▸ List.mem_cons_self e es)
      · rcases mem_addEdgeNX_attrs es a b at2 e2 he3 with hm | hm | ⟨e0, h0, hat⟩
        · exact Or.inl (List.mem_cons_of_mem e hm)
        · exact Or.inr (Or.inl hm)
        · exact Or.inr (Or.inr ⟨e0, List.mem_cons_of_mem e h0, hat⟩)

theorem WF_empty : WF emptyAdapter :=
  ⟨List.nodup_nil, fun p hp => absurd hp (List.not_mem_nil p), List.Pairwise.nil,
   fun e he => absurd he (List.not_mem_nil e), fun e he => absurd he (List.not_mem_nil e),
   fun p hp => absurd hp (List.not_mem_nil p)⟩

theorem WF_applyOp (h : Adapter) (op : Op) (hWF : WF h) (hco : createOnly op)
    (hcl : cleanOp op) : WF (applyOp h op) := by
  cases op with
  | opCreateNode l props n g =>
    show WF (match createNode h l props n g with | .ok r => r.2 | .error _ => h)
    cases hres : createNode h l props n g with
    | error e => exact hWF
    | ok r =>
      obtain ⟨rid, h2⟩ := r
      obtain ⟨a, hpa, hval, hfresh, hrid, hstate⟩ := createNode_ok_inv h l props n g rid h2 hres
      show WF h2
      subst hstate
      obtain ⟨hnd, hprops, hup, hedges, hep, hlabels⟩ := hWF
      obtain ⟨hid, _, _⟩ := validate_ok_inv a (hpa ▸ hval)
      refine ⟨?_, ?_, hup, hedges, ?_, ?_⟩
      · rw [List.map_append, List.nodup_append]
        refine ⟨hnd, by simp, ?_⟩
        intro y hy hyx
        simp only [List.map_cons, List.map_nil, List.mem_singleton] at hyx
        rw [hyx] at hy
        exact any_key_false_not_mem h.nodes rid hfresh hy
      · intro p hp
        rcases List.mem_append.mp hp with hp2 | hp2
        · exact hprops p hp2
        · rw [List.mem_singleton] at hp2
          rw [hp2]
          refine ⟨keysNodup_aupdate _ a (by simp [keysNodup]), ?_⟩
          exact alookup_aupdate_none _ a "id" rfl hid
      · intro e he
        exact ⟨hasNode_any_append h.nodes _ e.u (hep e he).1,
               hasNode_any_append h.nodes _ e.v (hep e he).2⟩
      · exact idxAdd_nodup h.nodesByLabel l rid hlabels
  | opUpdateNode m props => exact hco.elim
  | opDeleteNode m => exact hco.elim
  | opCreateRel s e ty p rid =>
    show WF (match createRelationship h s e ty p rid with | .ok r2 => r2.2 | .error _ => h)
    cases hres : createRelationship h s e ty p rid with
    | error e2 => exact hWF
    | ok r =>
      obtain ⟨rid2, h2⟩ := r
      obtain ⟨hs, he, _, hstate⟩ := createRelationship_ok_inv h s e ty p rid rid2 h2 hres
      show WF h2
      subst hstate
      obtain ⟨hcs, hct⟩ := hcl
      obtain ⟨hnd, hprops, hup, hedges, hep, hlabels⟩ := hWF
      refine ⟨hnd, hprops, ?_, ?_, ?_, hlabels⟩
      · exact addEdgeNX_pairwise h.edges s e _ hup
      · intro x hx
        rcases mem_addEdgeNX_attrs h.edges s e _ x hx with hm | hat | ⟨e0, h0, hat⟩
        · exact hedges x hm
        · rw [hat]
          refine ⟨keysNodup_aupdate _ _ (by simp [keysNodup]), ?_, ?_⟩
          · exact alookup_aupdate_none _ _ "source" rfl hcs
          · exact alookup_aupdate_none _ _ "target" rfl hct
        · rw [hat]
          obtain ⟨hnd0, hs0, ht0⟩ := hedges e0 h0
          refine ⟨keysNodup_aupdate _ _ hnd0, ?_, ?_⟩
          · exact alookup_aupdate_none _ _ "source" hs0
              (alookup_aupdate_none _ _ "source" rfl hcs)
          · exact alookup_aupdate_none _ _ "target" ht0
              (alookup_aupdate_none _ _ "target" rfl hct)
      · intro x hx
        rcases mem_addEdgeNX_pair h.edges s e _ x hx with ⟨e0, h0, hu, hv⟩ | ⟨hu, hv⟩
        · rw [hu, hv]
          exact hep e0 h0
        · rw [hu, hv]
          exact ⟨hs, he⟩
  | opDeleteRel rid => exact hco.elim
  | opClearAll => exact hco.elim

theorem WF_foldl (ops : List Op) : ∀ h : Adapter, WF h →
    (∀ op ∈ ops, createOnly op ∧ cleanOp op) → WF (ops.foldl applyOp h) := by
  induction ops with
  | nil => exact fun h hWF _ => hWF
  | cons op rest ih =>
    intro h hWF hops
    exact ih (applyOp h op)
      (WF_applyOp h op hWF (hops op (List.mem_cons_self op rest)).1
        (hops op (List.mem_cons_self op rest)).2)
      (fun o ho => hops o (List.mem_cons_of_mem op ho))

theorem applyOp_connected (h : Adapter) (op : Op) :
    (applyOp h op).connected = h.connected := by
  cases op with
  | opCreateNode l props n g =>
    show (match createNode h l props n g with
      | .ok r => r.2 | .error _ => h).connected = h.connected
    cases hres : createNode h l props n g with
    | error e => rfl
    | ok r =>
      obtain ⟨rid, h2⟩ := r
      obtain ⟨a, _, _, _, _, hstate⟩ := createNode_ok_inv h l props n g rid h2 hres
      rw [hstate]
  | opUpdateNode m props =>
    show (match updateNode h m props with
      | .ok r => r.2 | .error _ => h).connected = h.connected
    cases hres : updateNode h m props with
    | error e => rfl
    | ok r =>
      obtain ⟨b, h2⟩ := r
      rcases updateNode_ok_inv h m props b h2 hres with ⟨_, hstate, _⟩ | ⟨_, _, a, _, hstate⟩ <;>
        rw [hstate]
  | opDeleteNode m =>
    show (match deleteNode h m with
      | .ok r => r.2 | .error _ => h).connected = h.connected
    cases hres : deleteNode h m with
    | error e => rfl
    | ok r =>
      obtain ⟨b, h2⟩ := r
      rcases deleteNode_ok_inv h m b h2 hres with ⟨_, hstate, _⟩ | ⟨_, _, hconn, _⟩
      · rw [hstate]
      · exact hconn
  | opCreateRel s e ty p rid =>
    show (match createRelationship h s e ty p rid with
      | .ok r2 => r2.2 | .error _ => h).connected = h.connected
    cases hres : createRelationship h s e ty p rid with
    | error e2 => rfl
    | ok r =>
      obtain ⟨rid2, h2⟩ := r
      obtain ⟨_, _, _, hstate⟩ := createRelationship_ok_inv h s e ty p rid rid2 h2 hres
      rw [hstate]
  | opDeleteRel rid =>
    show (match deleteRelationship h rid with
      | .ok r2 => r2.2 | .error _ => h).connected = h.connected
    cases hres : deleteRelationship h rid with
    | error e => rfl
    | ok r =>
      obtain ⟨b, h2⟩ := r
      rcases deleteRelationship_ok_inv h rid b h2 hres with ⟨_, hstate, _⟩ | ⟨_, hstate⟩ <;>
        rw [hstate]
  | opClearAll =>
    show (match clearAll h with
      | .ok r => r.2 | .error _ => h).connected = h.connected
    cases hres : clearAll h with
    | error e => rfl
    | ok r =>
      obtain ⟨u, h2⟩ := r
      rw [clearAll_ok_inv h u h2 hres]

theorem foldl_connected (ops : List Op) : ∀ h : Adapter,
    (ops.foldl applyOp h).connected = h.connected := by
  induction ops with
  | nil => exact fun h => rfl
  | cons op rest ih =>
    intro h
    rw [List.foldl_cons, ih (applyOp h op), applyOp_connected]

theorem addNodeNX_append (pre : List (String × Attrs)) (n : String) (a : Attrs)
    (hn : ¬ n ∈ pre.map (·.1)) : addNodeNX pre n a = pre ++ [(n, a)] := by
  have hfalse : pre.any (fun p => p.1 == n) = false := by
    rw [List.any_eq_false]
    intro p hp
    simp only [beq_iff_eq]
    intro hpn
    exact hn (List.mem_map.mpr ⟨p, hp, hpn⟩)
  unfold addNodeNX
  rw [hfalse]
  simp

theorem decodeNodeRow_enc (n : String) (a : Attrs) (hid : alookup a "id" = none) :
    decodeNodeRow (J.jobj (aupdate a [("id", J.jstr n)])) = .ok (n, a) := by
  have he : aupdate a [("id", J.jstr n)] = a ++ [("id", J.jstr n)] := by
    show ainsert a "id" (J.jstr n) = _
    exact ainsert_eq_append a "id" (J.jstr n) hid
  rw [he]
  have hl : jLookup (a ++ [("id", J.jstr n)]) "id" = some (J.jstr n) := by
    show flook _ _ = _
    rw [flook_append]
    rw [show flook a "id" = none from hid]
    rfl
  simp only [decodeNodeRow, hl]
  rw [List.filter_append, filter_key_absent a "id" hid]
  simp

theorem decodeRows_aux : ∀ (nodes pre : List (String × Attrs)),
    ((pre ++ nodes).map (·.1)).Nodup →
    (∀ p ∈ nodes, alookup p.2 "id" = none) →
    (nodes.map (fun p => J.jobj (aupdate p.2 [("id", J.jstr p.1)]))).foldlM
      (fun acc j => do
        let r ← decodeNodeRow j
        pure (addNodeNX acc r.1 r.2)) pre = .ok (pre ++ nodes)
  | [], pre, _, _ => by
    simp only [List.map_nil, List.foldlM_nil, List.append_nil]
    rfl
  | q :: rest, pre, hnd, hid => by
    simp only [List.map_cons, List.foldlM_cons]
    rw [decodeNodeRow_enc q.1 q.2 (hid q (List.mem_cons_self q rest))]
    rw [except_mbind_ok, except_pure_bind]
    have hq : ¬ q.1 ∈ pre.map (·.1) := by
      intro hmem
      rw [List.map_append, List.nodup_append] at hnd
      exact hnd.2.2 hmem (by simp)
    rw [addNodeNX_append pre q.1 q.2 hq]
    have := decodeRows_aux rest (pre ++ [(q.1, q.2)])
      (by simpa using hnd)
      (fun p hp => hid p (List.mem_cons_of_mem q hp))
    simpa using this

theorem decodeRows_enc (nodes : List (String × Attrs))
    (hnd : (nodes.map (·.1)).Nodup)
    (hid : ∀ p ∈ nodes, alookup p.2 "id" = none) :
    decodeRows (nodes.map (fun p => J.jobj (aupdate p.2 [("id", J.jstr p.1)]))) = .ok nodes := by
  have h0 := decodeRows_aux nodes [] (by simpa using hnd) hid
  rw [List.nil_append] at h0
  exact h0

theorem ensureNode_of_any (nodes : List (String × Attrs)) (nid : String)
    (h : nodes.any (fun p => p.1 == nid) = true) : ensureNode nodes nid = nodes := by
  unfold ensureNode
  rw [h]
  rfl

theorem addEdgeNX_append_all (es : List Edge) (a b : String) (at2 : Attrs)
    (h : ∀ x ∈ es, sameEdge x a b = false) : addEdgeNX es a b at2 = es ++ [⟨a, b, at2⟩] := by
  induction es with
  | nil => rfl
  | cons e rest ih =>
    rw [addEdgeNX, if_neg (by simp [h e (List.mem_cons_self e rest)])]
    rw [ih (fun x hx => h x (List.mem_cons_of_mem e hx))]
    rfl

theorem decodeLinkRow_enc (u v : String) (a : Attrs)
    (hs : alookup a "source" = none) (ht : alookup a "target" = none) :
    decodeLinkRow (J.jobj (aupdate a [("source", J.jstr u), ("target", J.jstr v)])) =
      .ok (u, v, a) := by
  have he : aupdate a [("source", J.jstr u), ("target", J.jstr v)] =
      a ++ [("source", J.jstr u), ("target", J.jstr v)] := by
    show ainsert (ainsert a "source" (J.jstr u)) "target" (J.jstr v) = _
    rw [ainsert_eq_append a "source" (J.jstr u) hs]
    rw [ainsert_eq_append _ "target" (J.jstr v) (by
      show flook _ _ = none
      rw [flook_append]
      rw [show flook a "target" = none from ht]
      rfl)]
    rw [List.append_assoc]
    rfl
  rw [he]
  have hls : jLookup (a ++ [("source", J.jstr u), ("target", J.jstr v)]) "source" =
      some (J.jstr u) := by
    show flook _ _ = _
    rw [flook_append]
    rw [show flook a "source" = none from hs]
    rfl
  have hlt : jLookup (a ++ [("source", J.jstr u), ("target", J.jstr v)]) "target" =
      some (J.jstr v) := by
    show flook _ _ = _
    rw [flook_append]
    rw [show flook a "target" = none from ht]
    rfl
  simp only [decodeLinkRow, hls, hlt]
  rw [List.filter_append, filter_two_keys_absent a "source" "target" hs ht]
  simp

theorem decodeLinks_aux : ∀ (edges accE : List Edge) (nodes : List (String × Attrs)),
    (∀ e ∈ edges, nodes.any (fun p => p.1 == e.u) = true ∧
      nodes.any (fun p => p.1 == e.v) = true) →
    (∀ e ∈ edges, alookup e.attrs "source" = none ∧ alookup e.attrs "target" = none) →
    (∀ x ∈ accE, ∀ e ∈ edges, sameEdge x e.u e.v = false) →
    edges.Pairwise (fun x y => sameEdge x y.u y.v = false) →
    (edges.map (fun e => J.jobj (aupdate e.attrs
        [("source", J.jstr e.u), ("target", J.jstr e.v)]))).foldlM
      (fun acc j => do
        let r ← decodeLinkRow j
        pure (ensureNode (ensureNode acc.1 r.1) r.2.1, addEdgeNX acc.2 r.1 r.2.1 r.2.2))
      (nodes, accE) = .ok (nodes, accE ++ edges)
  | [], accE, nodes, _, _, _, _ => by
    simp only [List.map_nil, List.foldlM_nil, List.append_nil]
    rfl
  | e :: rest, accE, nodes, hep, hcl, hcross, hpw => by
    simp only [List.map_cons, List.foldlM_cons]
    rw [decodeLinkRow_enc e.u e.v e.attrs (hcl e (List.mem_cons_self e rest)).1
      (hcl e (List.mem_cons_self e rest)).2]
    rw [except_mbind_ok, except_pure_bind]
    rw [show ensureNode nodes e.u = nodes from
      ensureNode_of_any nodes e.u (hep e (List.mem_cons_self e rest)).1]
    rw [show ensureNode nodes e.v = nodes from
      ensureNode_of_any nodes e.v (hep e (List.mem_cons_self e rest)).2]
    rw [addEdgeNX_append_all accE e.u e.v e.attrs
      (fun x hx => hcross x hx e (List.mem_cons_self e rest))]
    rw [List.pairwise_cons] at hpw
    have := decodeLinks_aux rest (accE ++ [e]) nodes
      (fun x hx => hep x (List.mem_cons_of_mem e hx))
      (fun x hx => hcl x (List.mem_cons_of_mem e hx))
      (fun x hx e2 he2 => by
        rcases List.mem_append.mp hx with hx2 | hx2
        · exact hcross x hx2 e2 (List.mem_cons_of_mem e he2)
        · rw [List.mem_singleton] at hx2
          rw [hx2]
          exact hpw.1 e2 he2)
      hpw.2
    simpa using this

theorem decodeLinks_enc (nodes : List (String × Attrs)) (edges : List Edge)
    (hep : ∀ e ∈ edges, nodes.any (fun p => p.1 == e.u) = true ∧
      nodes.any (fun p => p.1 == e.v) = true)
    (hcl : ∀ e ∈ edges, alookup e.attrs "source" = none ∧ alookup e.attrs "target" = none)
    (hpw : edges.Pairwise (fun x y => sameEdge x y.u y.v = false)) :
    decodeLinks nodes (edges.map (fun e => J.jobj (aupdate e.attrs
      [("source", J.jstr e.u), ("target", J.jstr e.v)]))) = .ok (nodes, edges) := by
  have h0 := decodeLinks_aux edges [] nodes hep hcl
    (fun x hx => absurd hx (List.not_mem_nil x)) hpw
  rw [List.nil_append] at h0
  exact h0

theorem jstr_fold : ∀ (ss acc : List String),
    (ss.map J.jstr).foldlM (fun ac v => match v with
      | J.jstr s => Except.ok (ac ++ [s])
      | _ => Except.error GError.databaseConnectionError) acc = .ok (acc ++ ss)
  | [], acc => by
    simp only [List.map_nil, List.foldlM_nil, List.append_nil]
    rfl
  | s :: rest, acc => by
    simp only [List.map_cons, List.foldlM_cons]
    rw [except_mbind_ok]
    have := jstr_fold rest (acc ++ [s])
    simpa using this

theorem setAdd_foldl : ∀ (ss acc : List String), ss.Nodup → (∀ x ∈ ss, ¬ x ∈ acc) →
    ss.foldl setAdd acc = acc ++ ss
  | [], acc, _, _ => by simp
  | s :: rest, acc, hnd, hdis => by
    rw [List.foldl_cons]
    have hs : setAdd acc s = acc ++ [s] := by
      unfold setAdd
      rw [if_neg (fun hc => hdis s (List.mem_cons_self s rest) (by simpa using hc))]
    rw [hs]
    rw [List.nodup_cons] at hnd
    have := setAdd_foldl rest (acc ++ [s]) hnd.2
      (fun x hx => by
        intro hmem
        rcases List.mem_append.mp hmem with hxa | hxs
        · exact hdis x (List.mem_cons_of_mem s hx) hxa
        · rw [List.mem_singleton] at hxs
          exact hnd.1 (hxs ▸ hx))
    simpa using this

theorem decodeLabelIdx_aux : ∀ (idx acc : List (String × List String)),
    (∀ p ∈ idx, p.2.Nodup) →
    (idx.map (fun p => (p.1, J.jarr (p.2.map J.jstr)))).foldlM
      (fun acc2 p => do
        match p.2 with
        | J.jarr vs => do
          let ss ← vs.foldlM (fun ac v => match v with
            | J.jstr s => Except.ok (ac ++ [s])
            | _ => Except.error GError.databaseConnectionError) ([] : List String)
          pure (acc2 ++ [(p.1, ss.foldl setAdd [])])
        | _ => Except.error GError.databaseConnectionError) acc = .ok (acc ++ idx)
  | [], acc, _ => by
    simp only [List.map_nil, List.foldlM_nil, List.append_nil]
    rfl
  | q :: rest, acc, hnd => by
    simp only [List.map_cons, List.foldlM_cons]
    rw [jstr_fold q.2 []]
    rw [except_mbind_ok]
    simp only [List.nil_append]
    rw [setAdd_foldl q.2 [] (hnd q (List.mem_cons_self q rest))
      (fun x _ => List.not_mem_nil x)]
    simp only [List.nil_append]
    rw [except_pure_bind]
    have := decodeLabelIdx_aux rest (acc ++ [(q.1, q.2)])
      (fun p hp => hnd p (List.mem_cons_of_mem q hp))
    simpa using this

theorem decodeLabelIdx_enc (idx : List (String × List String))
    (hnd : ∀ p ∈ idx, p.2.Nodup) :
    decodeLabelIdx (J.jobj (idx.map (fun p => (p.1, J.jarr (p.2.map J.jstr))))) = .ok idx := by
  have h0 := decodeLabelIdx_aux idx [] hnd
  rw [List.nil_append] at h0
  exact h0

theorem loadGraph_saveDoc (h : Adapter) (hWF : WF h) :
    loadGraph (.parsed (saveDoc h)) = .ok { h with connected := false } := by
  obtain ⟨hnd, hprops, hup, hedges, hep, hlabels⟩ := hWF
  have hrows : decodeRows (h.nodes.map (fun p =>
      J.jobj (aupdate p.2 [("id", J.jstr p.1)]))) = .ok h.nodes :=
    decodeRows_enc h.nodes hnd (fun p hp => (hprops p hp).2)
  have hlinks : decodeLinks h.nodes (h.edges.map (fun e =>
      J.jobj (aupdate e.attrs [("source", J.jstr e.u), ("target", J.jstr e.v)]))) =
      .ok (h.nodes, h.edges) :=
    decodeLinks_enc h.nodes h.edges (fun e he => hep e he)
      (fun e he => ⟨(hedges e he).2.1, (hedges e he).2.2⟩) hup
  have hidx : decodeLabelIdx (J.jobj (h.nodesByLabel.map
      (fun p => (p.1, J.jarr (p.2.map J.jstr))))) = .ok h.nodesByLabel :=
    decodeLabelIdx_enc h.nodesByLabel hlabels
  have hstep1 : loadGraph (.parsed (saveDoc h)) =
      (nodeLinkGraph
        [("directed", J.jbool false), ("multigraph", J.jbool false),
         ("graph", J.jobj []),
         ("nodes", J.jarr (h.nodes.map (fun p => J.jobj (aupdate p.2 [("id", J.jstr p.1)])))),
         ("links", J.jarr (h.edges.map (fun e =>
            J.jobj (aupdate e.attrs [("source", J.jstr e.u), ("target", J.jstr e.v)]))))]).bind
      (fun g =>
        (decodeLabelIdx (J.jobj (h.nodesByLabel.map
            (fun p => (p.1, J.jarr (p.2.map J.jstr)))))).bind
        (fun idx => Except.ok
          { connected := false
            nodes := g.1
            edges := g.2
            nodesByLabel := idx
            relCounter := h.relCounter })) := rfl
  have hstep2 : nodeLinkGraph
        [("directed", J.jbool false), ("multigraph", J.jbool false),
         ("graph", J.jobj []),
         ("nodes", J.jarr (h.nodes.map (fun p => J.jobj (aupdate p.2 [("id", J.jstr p.1)])))),
         ("links", J.jarr (h.edges.map (fun e =>
            J.jobj (aupdate e.attrs [("source", J.jstr e.u), ("target", J.jstr e.v)]))))] =
      (decodeRows (h.nodes.map (fun p => J.jobj (aupdate p.2 [("id", J.jstr p.1)])))).bind
        (fun ns => decodeLinks ns (h.edges.map (fun e =>
            J.jobj (aupdate e.attrs [("source", J.jstr e.u), ("target", J.jstr e.v)])))) := rfl
  rw [hstep1, hstep2, hrows, except_obind_ok, hlinks, except_obind_ok, hidx, except_obind_ok]

theorem connect_saveDoc (h : Adapter) (hWF : WF h) :
    connectModel (.parsed (saveDoc h)) = .ok { h with connected := true } := by
  unfold connectModel
  rw [loadGraph_saveDoc h hWF]

/-- C3 (counterexample): the save/load round trip is not exact for
every graph built by successful `create_node` / `create_relationship`
calls: a relationship property named `source` is overwritten by the
node-link serializer (link rows are `{**attrs, "source": u,
"target": v}`) and the key is dropped again on load, so the loaded
relationship set lacks the property.  The first conjunct shows the
`create_relationship` call storing the property succeeds; the second
shows the loaded edge set differs from the stored one. -/
theorem c3_counterexample :
    Except.map Prod.fst (createRelationship
      (reach [Op.opCreateNode "Rule" (.dict []) (some "a") "g",
        Op.opCreateNode "Rule" (.dict []) (some "b") "g2"])
      "a" "b" "T" (some [("source", J.jstr "x")]) "r1") = .ok "r1" ∧
    Except.map (fun h2 => decide (h2.edges = (reach
      [Op.opCreateNode "Rule" (.dict []) (some "a") "g",
       Op.opCreateNode "Rule" (.dict []) (some "b") "g2",
       Op.opCreateRel "a" "b" "T" (some [("source", J.jstr "x")]) "r1"]).edges))
      (connectModel (.parsed (saveDoc (reach
        [Op.opCreateNode "Rule" (.dict []) (some "a") "g",
         Op.opCreateNode "Rule" (.dict []) (some "b") "g2",
         Op.opCreateRel "a" "b" "T" (some [("source", J.jstr "x")]) "r1"])))) = .ok false :=
  ⟨rfl, rfl⟩

/-- C3 (amended): for every graph reached from a fresh handle by a
sequence of `create_node` / `create_relationship` calls whose
relationship properties do not use the serializer-reserved keys
`source` / `target`, saving the graph and loading the document into a
fresh handle reproduces the state exactly: identical node set (ids,
labels and property bags), identical relationship set including
properties (bookkeeping overrides such as `rel_id` round-trip exactly),
identical label index and relationship counter. -/
theorem c3_amended (ops : List Op)
    (hops : ∀ op ∈ ops, createOnly op ∧ cleanOp op) :
    connectModel (.parsed (saveDoc (reach ops))) = .ok (reach ops) := by
  have hWF : WF (reach ops) := WF_foldl ops emptyAdapter WF_empty hops
  rw [connect_saveDoc (reach ops) hWF]
  have hc : (reach ops).connected = true := foldl_connected ops emptyAdapter
  cases hre : reach ops with
  | mk c ns es il rc =>
    rw [hre] at hc
    have hc2 : c = true := hc
    rw [hc2]

/-- C3 (witness for the amended theorem; the relationship's properties
override the `rel_id` bookkeeping key, which round-trips exactly). -/
theorem c3_amended_witness :
    connectModel (.parsed (saveDoc (reach
      [Op.opCreateNode "Person" (.dict [("age", J.jnum 3)]) (some "a") "g",
       Op.opCreateNode "City" (.dict []) (some "b") "g2",
       Op.opCreateRel "a" "b" "LIVES_IN"
         (some [("since", J.jnum 2020), ("rel_id", J.jstr "custom")]) "r1"]))) =
    .ok (reach
      [Op.opCreateNode "Person" (.dict [("age", J.jnum 3)]) (some "a") "g",
       Op.opCreateNode "City" (.dict []) (some "b") "g2",
       Op.opCreateRel "a" "b" "LIVES_IN"
         (some [("since", J.jnum 2020), ("rel_id", J.jstr "custom")]) "r1"]) :=
  c3_amended
    [Op.opCreateNode "Person" (.dict [("age", J.jnum 3)]) (some "a") "g",
     Op.opCreateNode "City" (.dict []) (some "b") "g2",
     Op.opCreateRel "a" "b" "LIVES_IN"
       (some [("since", J.jnum 2020), ("rel_id", J.jstr "custom")]) "r1"]
    (by
      intro op hop
      rcases List.mem_cons.mp hop with rfl | hop2
      · exact ⟨trivial, trivial⟩
      rcases List.mem_cons.mp hop2 with rfl | hop3
      · exact ⟨trivial, trivial⟩
      rcases List.mem_cons.mp hop3 with rfl | hop4
      · exact ⟨trivial, rfl, rfl⟩
      · exact absurd hop4 (List.not_mem_nil op))

end GraphRAG
